import Mathlib

/-!
Verification development for the StarGAN v2 architecture file
`baseline/starganv2.py`.  The PyTorch modules are shallowly embedded as
Lean functions over a `Tensor` type that carries an explicit shape
(`List Nat`, in `(batch, channel, height, width)` order for feature maps)
and a total data function.  Every tensor operation first computes the
output shape with a pure shape function (mirroring the shape checks the
torch runtime performs) and fails with `Except.error` exactly when the
runtime would raise; on success it returns the tensor whose entries are
given by the textbook formula of the corresponding torch primitive.

Scalars are taken in an arbitrary `LinearOrderedField` so that every
definition stays executable; the two irrational constants the source
uses (`math.sqrt(2)` and the `sqrt` inside instance normalisation) are
abstracted into a `ScalarCfg` record, since no claim below depends on
their numeric value.  Learned parameters (convolution kernels, linear
weights, affine instance-norm parameters) are arbitrary functions: the
source initialises them randomly, so every theorem quantifies over them.
-/

set_option linter.unusedSectionVars false
set_option linter.unnecessarySeqFocus false

namespace StarGanV2

/-- Abstract scalar context: the value of `math.sqrt(2)` and the square
root function used inside instance normalisation. -/
structure ScalarCfg (α : Type) where
  sqrt2 : α
  sqrtA : α → α

/-- A tensor: a shape together with a total data function.  Entries at
indices outside the shape are junk (conventionally 0). -/
structure Tensor (α : Type) where
  shape : List Nat
  data : List Nat → α

variable {α : Type} [LinearOrderedField α]

/-- Elementwise map; shape preserving, never fails. -/
def tmap (f : α → α) (t : Tensor α) : Tensor α :=
  ⟨t.shape, fun idx => f (t.data idx)⟩

/-- Build an op result from a computed output shape: `some s` yields the
tensor with the given data, `none` raises the given runtime error. -/
def shaped (msg : String) (s? : Option (List Nat)) (d : List Nat → α) :
    Except String (Tensor α) :=
  match s? with
  | some s => .ok ⟨s, d⟩
  | none => .error msg

/-- Output extent of a convolution along one spatial dimension
(`(h + 2*pad - k) / stride + 1`, defined when the padded input is at
least as large as the kernel). -/
def convOutDim (k stride pad h : Nat) : Option Nat :=
  if k ≤ h + 2 * pad then some ((h + 2 * pad - k) / stride + 1) else none

/-- Shape rule of `nn.Conv2d`: rank-4 input whose channel count matches
`inC`. -/
def conv2dShape (inC outC k stride pad : Nat) : List Nat → Option (List Nat)
  | [n, c, h, w] =>
    if c = inC then
      match convOutDim k stride pad h, convOutDim k stride pad w with
      | some h2, some w2 => some [n, outC, h2, w2]
      | _, _ => none
    else none
  | _ => none

/-- Shape rule of `F.avg_pool2d(x, 2)`: halves both spatial extents,
defined when they are at least the kernel size 2. -/
def poolShape : List Nat → Option (List Nat)
  | [n, c, h, w] => if 2 ≤ h ∧ 2 ≤ w then some [n, c, h / 2, w / 2] else none
  | _ => none

/-- Shape rule of `F.interpolate(x, scale_factor=2, mode=nearest)`. -/
def upShape : List Nat → Option (List Nat)
  | [n, c, h, w] => some [n, c, 2 * h, 2 * w]
  | _ => none

/-- Shape rule of instance normalisation with input statistics: rank-4
input, more than one spatial element, and (only when the norm carries
affine parameters) a channel count equal to `num_features`. -/
def instShape (affine : Bool) (nf : Nat) : List Nat → Option (List Nat)
  | [n, c, h, w] =>
    if (affine = true → c = nf) ∧ 1 < h * w then some [n, c, h, w] else none
  | _ => none

/-- Shape rule of `nn.Linear`: the last dimension must equal the input
feature count and is replaced by the output feature count. -/
def linShape (inF outF : Nat) (s : List Nat) : Option (List Nat) :=
  if s ≠ [] ∧ s.getLast? = some inF then some (s.dropLast ++ [outF]) else none

/-- Shape rule of `x.view(x.size(0), -1)`. -/
def flatShape : List Nat → Option (List Nat)
  | [] => none
  | d :: rest => some [d, rest.prod]

/-- One broadcast dimension: equal extents, or one of them is 1. -/
def bcDim (a b : Nat) : Option Nat :=
  if a = b then some a else if a = 1 then some b else if b = 1 then some a else none

/-- Broadcast of two equal-rank shapes. -/
def bcShape : List Nat → List Nat → Option (List Nat)
  | [], [] => some []
  | a :: as, b :: bs =>
    match bcDim a b, bcShape as bs with
    | some d, some ds => some (d :: ds)
    | _, _ => none
  | _, _ => none

/-- Map a broadcast result index back to an index of an operand with the
given shape: dimensions of extent 1 are pinned to 0. -/
def bcIdx : List Nat → List Nat → List Nat
  | [], _ => []
  | _, [] => []
  | d :: ds, i :: is => (if d = 1 then 0 else i) :: bcIdx ds is

/-- Read a padded input: coordinates are in the padded frame, entries in
the padding band are 0. -/
def padGet (x : Tensor α) (pad n c i j : Nat) : α :=
  match x.shape with
  | [_, _, h, w] =>
    if pad ≤ i ∧ i < h + pad ∧ pad ≤ j ∧ j < w + pad then
      x.data [n, c, i - pad, j - pad]
    else 0
  | _ => 0

/-- Parameters of an `nn.Conv2d` layer (weight layout
`[outC, inC, ki, kj]`; `useBias = false` models `bias=False`). -/
structure Conv2dP (α : Type) where
  inC : Nat
  outC : Nat
  k : Nat
  stride : Nat
  pad : Nat
  useBias : Bool
  w : List Nat → α
  b : Nat → α

/-- `nn.Conv2d` forward. -/
def convApply (c : Conv2dP α) (x : Tensor α) : Except String (Tensor α) :=
  shaped "conv2d: invalid input" (conv2dShape c.inC c.outC c.k c.stride c.pad x.shape)
    (fun idx =>
      match idx with
      | [n, co, i, j] =>
        (if c.useBias then c.b co else 0) +
          Finset.sum (Finset.range c.inC) (fun ci =>
            Finset.sum (Finset.range c.k) (fun a =>
              Finset.sum (Finset.range c.k) (fun bb =>
                c.w [co, ci, a, bb] *
                  padGet x c.pad n ci (i * c.stride + a) (j * c.stride + bb))))
      | _ => 0)

/-- `F.avg_pool2d(x, 2)` forward. -/
def avgPool2 (x : Tensor α) : Except String (Tensor α) :=
  shaped "avg_pool2d: output size too small" (poolShape x.shape)
    (fun idx =>
      match idx with
      | [n, c, i, j] =>
        (x.data [n, c, 2 * i, 2 * j] + x.data [n, c, 2 * i, 2 * j + 1] +
            x.data [n, c, 2 * i + 1, 2 * j] + x.data [n, c, 2 * i + 1, 2 * j + 1]) / 4
      | _ => 0)

/-- `F.interpolate(x, scale_factor=2, mode=nearest)` forward. -/
def upNearest2 (x : Tensor α) : Except String (Tensor α) :=
  shaped "interpolate: invalid input" (upShape x.shape)
    (fun idx =>
      match idx with
      | [n, c, i, j] => x.data [n, c, i / 2, j / 2]
      | _ => 0)

/-- Per-channel spatial mean of a rank-4 tensor. -/
def instMean (x : Tensor α) (h w n c : Nat) : α :=
  Finset.sum (Finset.range h) (fun i =>
    Finset.sum (Finset.range w) (fun j => x.data [n, c, i, j])) / ((h * w : Nat) : α)

/-- Per-channel biased spatial variance of a rank-4 tensor. -/
def instVar (x : Tensor α) (h w n c : Nat) : α :=
  Finset.sum (Finset.range h) (fun i =>
    Finset.sum (Finset.range w) (fun j =>
      (x.data [n, c, i, j] - instMean x h w n c) ^ 2)) / ((h * w : Nat) : α)

/-- The `eps` of `nn.InstanceNorm2d` (default `1e-5`). -/
def instEps : α := 1 / 100000

/-- Parameters of an `nn.InstanceNorm2d` layer. -/
structure InstNormP (α : Type) where
  affine : Bool
  nf : Nat
  g : Nat → α
  b : Nat → α

/-- `nn.InstanceNorm2d` forward (input statistics, biased variance). -/
def instNormApply (SC : ScalarCfg α) (p : InstNormP α) (x : Tensor α) :
    Except String (Tensor α) :=
  shaped "instance_norm: invalid input" (instShape p.affine p.nf x.shape)
    (fun idx =>
      match x.shape, idx with
      | [_, _, h, w], [n, c, i, j] =>
        let nrm := (x.data [n, c, i, j] - instMean x h w n c) /
          SC.sqrtA (instVar x h w n c + instEps)
        if p.affine then p.g c * nrm + p.b c else nrm
      | _, _ => 0)

/-- Parameters of an `nn.Linear` layer (weight layout `[outF, inF]`). -/
structure LinearP (α : Type) where
  inF : Nat
  outF : Nat
  w : List Nat → α
  b : Nat → α

/-- `nn.Linear` forward, acting on the last dimension. -/
def linearApply (l : LinearP α) (x : Tensor α) : Except String (Tensor α) :=
  shaped "linear: shape mismatch" (linShape l.inF l.outF x.shape)
    (fun idx =>
      l.b (idx.getLastD 0) +
        Finset.sum (Finset.range l.inF) (fun q =>
          l.w [idx.getLastD 0, q] * x.data (idx.dropLast ++ [q])))

/-- `nn.LeakyReLU(0.2)` forward. -/
def leakyApply (x : Tensor α) : Tensor α :=
  tmap (fun v => if 0 ≤ v then v else v / 5) x

/-- `nn.ReLU` forward. -/
def reluApply (x : Tensor α) : Tensor α :=
  tmap (fun v => max 0 v) x

/-- Elementwise binary operation with equal-rank broadcasting. -/
def bcBinOp (f : α → α → α) (x y : Tensor α) : Except String (Tensor α) :=
  shaped "broadcast: incompatible shapes" (bcShape x.shape y.shape)
    (fun idx => f (x.data (bcIdx x.shape idx)) (y.data (bcIdx y.shape idx)))

/-- `x.view(x.size(0), -1)` forward. -/
def flattenTail (x : Tensor α) : Except String (Tensor α) :=
  shaped "view: invalid shape" (flatShape x.shape)
    (fun idx =>
      match x.shape, idx with
      | _ :: rest, [n, j] => x.data (n :: unflatten rest j)
      | _, _ => 0)
where
  /-- Recover a multi-index from a flat offset. -/
  unflatten : List Nat → Nat → List Nat
    | [], _ => []
    | _ :: rest, j => j / rest.prod :: unflatten rest (j % rest.prod)

/-- Shape rule of `h.view(h.size(0), h.size(1), 1, 1)` on a rank-2
input. -/
def view4ShapeS : List Nat → Option (List Nat)
  | [n, f] => some [n, f, 1, 1]
  | _ => none

/-- `h.view(h.size(0), h.size(1), 1, 1)` on a rank-2 input. -/
def view4of2 (x : Tensor α) : Except String (Tensor α) :=
  shaped "view: invalid shape" (view4ShapeS x.shape)
    (fun idx =>
      match idx with
      | [n, f, _, _] => x.data [n, f]
      | _ => 0)

/-- `torch.chunk(h, chunks=2, dim=1)`: the two halves along dimension 1
(first half of size `ceil(d1 / 2)`). -/
def chunk2 (x : Tensor α) : Except String (Tensor α × Tensor α) :=
  match x.shape with
  | d0 :: d1 :: rest =>
    let c1 := (d1 + 1) / 2
    .ok (⟨d0 :: c1 :: rest, fun idx => x.data idx⟩,
         ⟨d0 :: (d1 - c1) :: rest,
          fun idx =>
            match idx with
            | n :: c :: r => x.data (n :: (c1 + c) :: r)
            | _ => 0⟩)
  | _ => .error "chunk: rank too small"

/-- `torch.stack(ts, dim=1)`. -/
def stack1 (ts : List (Tensor α)) : Except String (Tensor α) :=
  match ts with
  | [] => .error "stack: empty list"
  | t :: _ =>
    shaped "stack: shape mismatch"
      (if ts.all (fun u => u.shape = t.shape) then
        match t.shape with
        | d0 :: rest => some (d0 :: ts.length :: rest)
        | [] => none
       else none)
      (fun idx =>
        match idx with
        | n :: kk :: r => ((ts.getD kk t).data) (n :: r)
        | _ => 0)

/-- Normalise a (possibly negative) torch integer index of a dimension
of extent `d`: negatives wrap by `+ d`. -/
def intWrap (d : Nat) (v : Int) : Nat :=
  (if v < 0 then v + d else v).toNat

/-- Shape-and-range rule for `out[torch.LongTensor(range(y.len)), y]`:
the row indices `0, ..., y.len - 1` must be in range, and every entry of
`y` must lie in `[-d1, d1)`. -/
def gatherShape (y : List Int) : List Nat → Option (List Nat)
  | d0 :: d1 :: rest =>
    if y.length ≤ d0 ∧ ∀ v ∈ y, -(d1 : Int) ≤ v ∧ v < d1 then
      some (y.length :: rest)
    else none
  | _ => none

/-- Advanced indexing `out[indx, y]` with `indx = range(y.len)`:
per-example gather along dimension 1, with torch wrap-around for
negative indices. -/
def advGather (x : Tensor α) (y : List Int) : Except String (Tensor α) :=
  shaped "IndexError: index out of bounds" (gatherShape y x.shape)
    (fun idx =>
      match x.shape, idx with
      | _ :: d1 :: _, b :: r => x.data (b :: intWrap d1 (y.getD b 0) :: r)
      | _, _ => 0)

/-!  ## The blocks of `starganv2.py` -/

/-- Parameters of `AdaptiveInstanceNorm(style_dim, num_features)`:
`self.norm = InstanceNorm2d(num_features, affine=False)` and
`self.fc = Linear(style_dim, num_features*2)`. -/
structure AdaptiveInstanceNorm (α : Type) where
  styleDim : Nat
  nf : Nat
  fcW : List Nat → α
  fcB : Nat → α

/-- `AdaptiveInstanceNorm.forward(x, s)`:
`h = fc(s); h = h.view(N, F, 1, 1); gamma, beta = chunk(h, 2, dim=1);`
`return (1 + gamma) * norm(x) + beta`. -/
def AdaptiveInstanceNorm.forward (SC : ScalarCfg α) (m : AdaptiveInstanceNorm α)
    (x s : Tensor α) : Except String (Tensor α) :=
  linearApply ⟨m.styleDim, 2 * m.nf, m.fcW, m.fcB⟩ s >>= fun h =>
  view4of2 h >>= fun h4 =>
  chunk2 h4 >>= fun gb =>
  instNormApply SC ⟨false, m.nf, fun _ => 0, fun _ => 0⟩ x >>= fun nx =>
  bcBinOp (fun a b => a * b) (tmap (fun g => 1 + g) gb.1) nx >>= fun t1 =>
  bcBinOp (fun a b => a + b) t1 gb.2

/-- Parameters of `ResBlock(dim_in, dim_out, ...)`.  The wiring fixed by
`__init__` is: `conv_1 = Conv2d(dim_in, dim_in, 3, 1, 1)`,
`conv_2 = Conv2d(dim_in, dim_out, 3, 1, 1)`, optional
`norm_1 = norm_2 = InstanceNorm2d(dim_in, affine=True)` and, when
`dim_in != dim_out`, `conv_1x1 = Conv2d(dim_in, dim_out, 1, 1, bias=False)`. -/
structure ResBlock (α : Type) where
  dimIn : Nat
  dimOut : Nat
  downsample : Bool
  normalize : Bool
  c1W : List Nat → α
  c1B : Nat → α
  c2W : List Nat → α
  c2B : Nat → α
  cxW : List Nat → α
  g1 : Nat → α
  b1 : Nat → α
  g2 : Nat → α
  b2 : Nat → α

/-- `ResBlock._shortcut`: 1x1 projection when `dim_in != dim_out`, then
average pooling when downsampling. -/
def ResBlock.shortcutF (r : ResBlock α) (x : Tensor α) : Except String (Tensor α) :=
  (if r.dimIn ≠ r.dimOut then
      convApply ⟨r.dimIn, r.dimOut, 1, 1, 0, false, r.cxW, fun _ => 0⟩ x
    else .ok x) >>= fun x1 =>
  if r.downsample then avgPool2 x1 else .ok x1

/-- `ResBlock._residual`. -/
def ResBlock.residualF (SC : ScalarCfg α) (r : ResBlock α) (x : Tensor α) :
    Except String (Tensor α) :=
  (if r.normalize then instNormApply SC ⟨true, r.dimIn, r.g1, r.b1⟩ x else .ok x) >>=
    fun x1 =>
  convApply ⟨r.dimIn, r.dimIn, 3, 1, 1, true, r.c1W, r.c1B⟩ (leakyApply x1) >>= fun x2 =>
  (if r.downsample then avgPool2 x2 else .ok x2) >>= fun x3 =>
  (if r.normalize then instNormApply SC ⟨true, r.dimIn, r.g2, r.b2⟩ x3 else .ok x3) >>=
    fun x4 =>
  convApply ⟨r.dimIn, r.dimOut, 3, 1, 1, true, r.c2W, r.c2B⟩ (leakyApply x4)

/-- `ResBlock.forward(x) = (residual(x) + shortcut(x)) / sqrt(2)`. -/
def ResBlock.forward (SC : ScalarCfg α) (r : ResBlock α) (x : Tensor α) :
    Except String (Tensor α) :=
  r.residualF SC x >>= fun out =>
  r.shortcutF x >>= fun sc =>
  bcBinOp (fun a b => a + b) out sc >>= fun sum =>
  .ok (tmap (fun v => v / SC.sqrt2) sum)

/-- Parameters of `AdaResBlock(dim_in, dim_out, style_dim, ...)`.  The
wiring fixed by `__init__`: `conv_1 = Conv2d(dim_in, dim_out, 3, 1, 1)`,
`conv_2 = Conv2d(dim_out, dim_out, 3, 1, 1)`,
`norm_1 = AdaptiveInstanceNorm(style_dim, dim_in)`,
`norm_2 = AdaptiveInstanceNorm(style_dim, dim_out)` and, when
`dim_in != dim_out`, `conv_1x1 = Conv2d(dim_in, dim_out, 1, 1, bias=False)`. -/
structure AdaResBlock (α : Type) where
  dimIn : Nat
  dimOut : Nat
  styleDim : Nat
  upsample : Bool
  c1W : List Nat → α
  c1B : Nat → α
  c2W : List Nat → α
  c2B : Nat → α
  cxW : List Nat → α
  n1W : List Nat → α
  n1B : Nat → α
  n2W : List Nat → α
  n2B : Nat → α

/-- `AdaResBlock._shortcut`: nearest upsample when upsampling, then 1x1
projection when `dim_in != dim_out`. -/
def AdaResBlock.shortcutF (r : AdaResBlock α) (x : Tensor α) :
    Except String (Tensor α) :=
  (if r.upsample then upNearest2 x else .ok x) >>= fun x1 =>
  if r.dimIn ≠ r.dimOut then
    convApply ⟨r.dimIn, r.dimOut, 1, 1, 0, false, r.cxW, fun _ => 0⟩ x1
  else .ok x1

/-- `AdaResBlock._residual`. -/
def AdaResBlock.residualF (SC : ScalarCfg α) (r : AdaResBlock α) (x s : Tensor α) :
    Except String (Tensor α) :=
  AdaptiveInstanceNorm.forward SC ⟨r.styleDim, r.dimIn, r.n1W, r.n1B⟩ x s >>= fun x1 =>
  (if r.upsample then upNearest2 (leakyApply x1) else .ok (leakyApply x1)) >>= fun x2 =>
  convApply ⟨r.dimIn, r.dimOut, 3, 1, 1, true, r.c1W, r.c1B⟩ x2 >>= fun x3 =>
  AdaptiveInstanceNorm.forward SC ⟨r.styleDim, r.dimOut, r.n2W, r.n2B⟩ x3 s >>= fun x4 =>
  convApply ⟨r.dimOut, r.dimOut, 3, 1, 1, true, r.c2W, r.c2B⟩ (leakyApply x4)

/-- `AdaResBlock.forward(x, s) = (residual(x, s) + shortcut(x)) / sqrt(2)`. -/
def AdaResBlock.forward (SC : ScalarCfg α) (r : AdaResBlock α) (x s : Tensor α) :
    Except String (Tensor α) :=
  r.residualF SC x s >>= fun out =>
  r.shortcutF x >>= fun sc =>
  bcBinOp (fun a b => a + b) out sc >>= fun sum =>
  .ok (tmap (fun v => v / SC.sqrt2) sum)

/-!  ## Sequential layer lists -/

/-- One layer of an `nn.Sequential` as used in this file. -/
inductive Layer (α : Type) where
  | conv (c : Conv2dP α)
  | lin (l : LinearP α)
  | relu
  | leaky
  | inorm (p : InstNormP α)
  | res (r : ResBlock α)

/-- Forward of one layer. -/
def layerForward (SC : ScalarCfg α) : Layer α → Tensor α → Except String (Tensor α)
  | .conv c, x => convApply c x
  | .lin l, x => linearApply l x
  | .relu, x => .ok (reluApply x)
  | .leaky, x => .ok (leakyApply x)
  | .inorm p, x => instNormApply SC p x
  | .res r, x => r.forward SC x

/-- Forward of an `nn.Sequential`. -/
def seqForward (SC : ScalarCfg α) (ls : List (Layer α)) (x : Tensor α) :
    Except String (Tensor α) :=
  ls.foldlM (fun t l => layerForward SC l t) x

/-- Parameter-free signature of a layer: everything its shape behaviour
(and hence its success or failure) depends on. -/
inductive LayerSig where
  | conv (inC outC k stride pad : Nat)
  | lin (inF outF : Nat)
  | relu
  | leaky
  | inorm (affine : Bool) (nf : Nat)
  | res (dimIn dimOut : Nat) (downsample normalize : Bool)
deriving DecidableEq

/-- Signature of a layer. -/
def layerSig : Layer α → LayerSig
  | .conv c => .conv c.inC c.outC c.k c.stride c.pad
  | .lin l => .lin l.inF l.outF
  | .relu => .relu
  | .leaky => .leaky
  | .inorm p => .inorm p.affine p.nf
  | .res r => .res r.dimIn r.dimOut r.downsample r.normalize

/-- Pure shape function of a `ResBlock` (mirrors `ResBlock.forward`). -/
def resShapeS (dimIn dimOut : Nat) (dn nm : Bool) (s : List Nat) :
    Option (List Nat) :=
  ((if nm then instShape true dimIn s else some s).bind fun r1 =>
    (conv2dShape dimIn dimIn 3 1 1 r1).bind fun r2 =>
    (if dn then poolShape r2 else some r2).bind fun r3 =>
    (if nm then instShape true dimIn r3 else some r3).bind fun r4 =>
    conv2dShape dimIn dimOut 3 1 1 r4).bind fun r5 =>
  ((if dimIn ≠ dimOut then conv2dShape dimIn dimOut 1 1 0 s else some s).bind fun t1 =>
    if dn then poolShape t1 else some t1).bind fun t2 =>
  bcShape r5 t2

/-- Pure shape function of a layer. -/
def layerShapeS : LayerSig → List Nat → Option (List Nat)
  | .conv inC outC k stride pad, s => conv2dShape inC outC k stride pad s
  | .lin inF outF, s => linShape inF outF s
  | .relu, s => some s
  | .leaky, s => some s
  | .inorm affine nf, s => instShape affine nf s
  | .res dimIn dimOut dn nm, s => resShapeS dimIn dimOut dn nm s

/-- Pure shape function of an `nn.Sequential`. -/
def seqShape (sigs : List LayerSig) (s : List Nat) : Option (List Nat) :=
  sigs.foldlM (fun sh g => layerShapeS g sh) s

/-!  ## The four networks

Each `__init__` is modelled by an init function taking a parameter
supply `P : Nat → Nat → List Nat → α` (`P i j` is the `j`-th freshly
initialised parameter of the `i`-th constructed block; the source draws
these at random, so every theorem quantifies over the supply).  An init
returns `none` exactly when the Python constructor raises (the
`NameError` on the loop-local `dim_out` when the downsampling loop runs
zero times). -/

/-- Fresh `ResBlock` parameters from one supply slot. -/
def mkRes (dimIn dimOut : Nat) (dn nm : Bool) (p : Nat → List Nat → α) : ResBlock α :=
  ⟨dimIn, dimOut, dn, nm, p 0, fun c => p 1 [c], p 2, fun c => p 3 [c], p 4,
   fun c => p 5 [c], fun c => p 6 [c], fun c => p 7 [c], fun c => p 8 [c]⟩

/-- Fresh `AdaResBlock` parameters from one supply slot. -/
def mkAda (dimIn dimOut styleDim : Nat) (up : Bool) (p : Nat → List Nat → α) :
    AdaResBlock α :=
  ⟨dimIn, dimOut, styleDim, up, p 0, fun c => p 1 [c], p 2, fun c => p 3 [c], p 4,
   p 5, fun c => p 6 [c], p 7, fun c => p 8 [c]⟩

/-- Fresh `Conv2d` parameters from one supply slot. -/
def mkConv (inC outC k stride pad : Nat) (p : Nat → List Nat → α) : Conv2dP α :=
  ⟨inC, outC, k, stride, pad, true, p 0, fun c => p 1 [c]⟩

/-- Fresh `Linear` parameters from one supply slot. -/
def mkLinear (inF outF : Nat) (p : Nat → List Nat → α) : LinearP α :=
  ⟨inF, outF, p 0, fun c => p 1 [c]⟩

/-- The shared downsampling loop of `Discriminator.__init__` and
`StyleEncoder.__init__`: `n` iterations of
`dim_out = min(dim_in*2, max_conv_dim); blocks += [ResBlock(dim_in,
dim_out, downsample=True)]; dim_in = dim_out`.  Returns the blocks and
the final `dim_in` (equal to the final loop value of `dim_out` whenever
`n >= 1`). -/
def discPyramid (maxd : Nat) (P : Nat → Nat → List Nat → α) (i : Nat) :
    Nat → Nat → List (Layer α) × Nat
  | dimIn, 0 => ([], dimIn)
  | dimIn, n + 1 =>
    (Layer.res (mkRes dimIn (min (dimIn * 2) maxd) true false (P i)) ::
        (discPyramid maxd P (i + 1) (min (dimIn * 2) maxd) n).1,
     (discPyramid maxd P (i + 1) (min (dimIn * 2) maxd) n).2)

/-- `Discriminator`: its `self.blocks` sequential. -/
structure Discriminator (α : Type) where
  blocks : List (Layer α)

/-- `Discriminator.__init__(img_size, num_domains, max_conv_dim)`. -/
def discInit (imgSize numDomains maxConvDim : Nat) (P : Nat → Nat → List Nat → α) :
    Option (Discriminator α) :=
  if Nat.log2 imgSize - 2 = 0 then none
  else
    some ⟨Layer.conv (mkConv 3 (2 ^ 14 / imgSize) 3 1 1 (P 0)) ::
      (discPyramid maxConvDim P 1 (2 ^ 14 / imgSize) (Nat.log2 imgSize - 2)).1 ++
      [Layer.leaky,
       Layer.conv (mkConv
         (discPyramid maxConvDim P 1 (2 ^ 14 / imgSize) (Nat.log2 imgSize - 2)).2
         (discPyramid maxConvDim P 1 (2 ^ 14 / imgSize) (Nat.log2 imgSize - 2)).2
         4 1 0 (P 900)),
       Layer.leaky,
       Layer.conv (mkConv
         (discPyramid maxConvDim P 1 (2 ^ 14 / imgSize) (Nat.log2 imgSize - 2)).2
         numDomains 1 1 0 (P 901))]⟩

/-- `Discriminator.forward(x, y)`:
`out = blocks(x); out = out.view(out.size(0), -1);`
`indx = LongTensor(range(y.size(0))); out = out[indx, y]`. -/
def Discriminator.forward (SC : ScalarCfg α) (d : Discriminator α) (x : Tensor α)
    (y : List Int) : Except String (Tensor α) :=
  seqForward SC d.blocks x >>= fun out =>
  flattenTail out >>= fun outf =>
  advGather outf y

/-- `StyleEncoder`: `self.shared` and the per-domain `self.unshared`
linear heads. -/
structure StyleEncoder (α : Type) where
  shared : List (Layer α)
  unshared : List (LinearP α)

/-- `StyleEncoder.__init__(img_size, style_dim, num_domains,
max_conv_dim)` (`Ph d` supplies the parameters of the head of domain
`d`). -/
def styleEncInit (imgSize styleDim numDomains maxConvDim : Nat)
    (P : Nat → Nat → List Nat → α) (Ph : Nat → Nat → List Nat → α) :
    Option (StyleEncoder α) :=
  if Nat.log2 imgSize - 2 = 0 then none
  else
    some ⟨Layer.conv (mkConv 3 (2 ^ 14 / imgSize) 3 1 1 (P 0)) ::
      (discPyramid maxConvDim P 1 (2 ^ 14 / imgSize) (Nat.log2 imgSize - 2)).1 ++
      [Layer.leaky,
       Layer.conv (mkConv
         (discPyramid maxConvDim P 1 (2 ^ 14 / imgSize) (Nat.log2 imgSize - 2)).2
         (discPyramid maxConvDim P 1 (2 ^ 14 / imgSize) (Nat.log2 imgSize - 2)).2
         4 1 0 (P 900)),
       Layer.leaky],
      (List.range numDomains).map (fun d =>
        mkLinear (discPyramid maxConvDim P 1 (2 ^ 14 / imgSize) (Nat.log2 imgSize - 2)).2
          styleDim (Ph d))⟩

/-- `StyleEncoder.forward(x, y)`: note the source applies each head to
the raw input `x` (`out += [layer(x)]`), not to the flattened shared
feature `h`. -/
def StyleEncoder.forward (SC : ScalarCfg α) (se : StyleEncoder α) (x : Tensor α)
    (y : List Int) : Except String (Tensor α) :=
  seqForward SC se.shared x >>= fun h =>
  flattenTail h >>= fun _hflat =>
  se.unshared.mapM (fun l => linearApply l x) >>= fun outs =>
  stack1 outs >>= fun st =>
  advGather st y

/-- `MappingNetwork`: the shared trunk and the per-domain head stacks
(the heads are built by `__init__` but, because of the bug in
`forward`, never reached). -/
structure MappingNetwork (α : Type) where
  shared : List (Layer α)
  unshared : List (List (Layer α))

/-- `MappingNetwork.__init__(latent_dim, style_dim, num_domains)`. -/
def mappingInit (latentDim styleDim numDomains : Nat)
    (P : Nat → Nat → List Nat → α) (Ph : Nat → Nat → Nat → List Nat → α) :
    MappingNetwork α :=
  ⟨[Layer.lin (mkLinear latentDim 512 (P 0)),
    Layer.lin (mkLinear 512 512 (P 1)), Layer.relu,
    Layer.lin (mkLinear 512 512 (P 2)), Layer.relu,
    Layer.lin (mkLinear 512 512 (P 3)), Layer.relu],
   (List.range numDomains).map (fun d =>
     [Layer.lin (mkLinear 512 512 (Ph d 0)), Layer.relu,
      Layer.lin (mkLinear 512 512 (Ph d 1)), Layer.relu,
      Layer.lin (mkLinear 512 512 (Ph d 2)), Layer.relu,
      Layer.lin (mkLinear 512 styleDim (Ph d 3))])⟩

/-- `MappingNetwork.forward(z, y)`: the body first evaluates
`h = self.shared(z)` and then executes `for layer in unshared:`, a
reference to the undefined module-level name `unshared` (the attribute
is `self.unshared`), which raises `NameError` on every call. -/
def MappingNetwork.forward (SC : ScalarCfg α) (m : MappingNetwork α) (z : Tensor α)
    (_y : List Int) : Except String (Tensor α) :=
  seqForward SC m.shared z >>= fun _h =>
  .error "NameError: name unshared is not defined"

/-- `Generator`: input stem, encoder, decoder and output stem. -/
structure Generator (α : Type) where
  convIn : Conv2dP α
  encoder : List (ResBlock α)
  decoder : List (AdaResBlock α)
  convOut : List (Layer α)

/-- The downsampling loop of `Generator.__init__`: `n` iterations of
`dim_out = min(dim_in*2, max_conv_dim);`
`encoder.append(ResBlock(dim_in, dim_out, normalize=True, downsample=True));`
`decoder.insert(0, AdaResBlock(dim_out, dim_in, style_dim, upsample=True));`
`dim_in = dim_out`.  Returns (encoder blocks, decoder blocks in their
final order, final `dim_in`). -/
def genPyramid (styleDim maxd : Nat) (P : Nat → Nat → List Nat → α) (i : Nat) :
    Nat → Nat → List (ResBlock α) × List (AdaResBlock α) × Nat
  | dimIn, 0 => ([], [], dimIn)
  | dimIn, n + 1 =>
    (mkRes dimIn (min (dimIn * 2) maxd) true true (P i) ::
        (genPyramid styleDim maxd P (i + 2) (min (dimIn * 2) maxd) n).1,
     (genPyramid styleDim maxd P (i + 2) (min (dimIn * 2) maxd) n).2.1 ++
       [mkAda (min (dimIn * 2) maxd) dimIn styleDim true (P (i + 1))],
     (genPyramid styleDim maxd P (i + 2) (min (dimIn * 2) maxd) n).2.2)

/-- The value of the loop variable `dim_in` (equally, of `dim_out` when
the loop ran at least once) after the downsampling loop of
`Generator.__init__`. -/
def genFin (styleDim maxConvDim imgSize : Nat) (P : Nat → Nat → List Nat → α) : Nat :=
  (genPyramid styleDim maxConvDim P 2 (2 ^ 14 / imgSize) (Nat.log2 imgSize - 4)).2.2

/-- `Generator.__init__(img_size, style_dim, max_conv_dim)`. -/
def genInit (imgSize styleDim maxConvDim : Nat) (P : Nat → Nat → List Nat → α) :
    Option (Generator α) :=
  if Nat.log2 imgSize - 4 = 0 then none
  else
    some ⟨mkConv 3 (2 ^ 14 / imgSize) 3 1 1 (P 0),
      (genPyramid styleDim maxConvDim P 2 (2 ^ 14 / imgSize) (Nat.log2 imgSize - 4)).1 ++
        [mkRes (genFin styleDim maxConvDim imgSize P) (genFin styleDim maxConvDim imgSize P)
           false true (P 900),
         mkRes (genFin styleDim maxConvDim imgSize P) (genFin styleDim maxConvDim imgSize P)
           false true (P 902)],
      [mkAda (genFin styleDim maxConvDim imgSize P) (genFin styleDim maxConvDim imgSize P)
         styleDim false (P 903),
       mkAda (genFin styleDim maxConvDim imgSize P) (genFin styleDim maxConvDim imgSize P)
         styleDim false (P 901)] ++
        (genPyramid styleDim maxConvDim P 2 (2 ^ 14 / imgSize) (Nat.log2 imgSize - 4)).2.1,
      [Layer.inorm ⟨true, 2 ^ 14 / imgSize, fun c => P 1 0 [c], fun c => P 1 1 [c]⟩,
       Layer.leaky, Layer.conv (mkConv (2 ^ 14 / imgSize) 3 1 1 0 (P 1))]⟩

/-- `Generator.forward(x, s)`: input stem, encoder blocks in order,
decoder blocks in order (each conditioned on `s`), output stem. -/
def Generator.forward (SC : ScalarCfg α) (g : Generator α) (x s : Tensor α) :
    Except String (Tensor α) :=
  convApply g.convIn x >>= fun x1 =>
  g.encoder.foldlM (fun t r => r.forward SC t) x1 >>= fun x2 =>
  g.decoder.foldlM (fun t r => r.forward SC t s) x2 >>= fun x3 =>
  seqForward SC g.convOut x3

/-!  ## Derived shape functions and signatures -/

/-- The shape-level meaning of a fallible tensor computation: it
succeeds with a tensor of shape `s` when the pure side is `some s`, and
fails when the pure side is `none`. -/
def ShapeCorr (e : Except String (Tensor α)) (s? : Option (List Nat)) : Prop :=
  match s? with
  | some s => ∃ t, e = .ok t ∧ t.shape = s
  | none => ∃ m, e = .error m

/-- Shapes of the two halves produced by `torch.chunk(h, 2, dim=1)`. -/
def chunkShapeS : List Nat → Option (List Nat × List Nat)
  | d0 :: d1 :: rest => some (d0 :: (d1 + 1) / 2 :: rest, d0 :: (d1 - (d1 + 1) / 2) :: rest)
  | _ => none

/-- Pure shape function of `AdaptiveInstanceNorm.forward`. -/
def adaInShapeS (sd nf : Nat) (xs ss : List Nat) : Option (List Nat) :=
  (linShape sd (2 * nf) ss).bind fun hs =>
  (view4ShapeS hs).bind fun h4 =>
  (chunkShapeS h4).bind fun gb =>
  (instShape false nf xs).bind fun ns =>
  (bcShape gb.1 ns).bind fun m1 =>
  bcShape m1 gb.2

/-- Pure shape function of `AdaResBlock.forward` (the style shape `ss`
enters through the two adaptive norms). -/
def adaShapeS (dimIn dimOut sd : Nat) (up : Bool) (xs ss : List Nat) :
    Option (List Nat) :=
  ((adaInShapeS sd dimIn xs ss).bind fun r1 =>
    (if up then upShape r1 else some r1).bind fun r2 =>
    (conv2dShape dimIn dimOut 3 1 1 r2).bind fun r3 =>
    (adaInShapeS sd dimOut r3 ss).bind fun r4 =>
    conv2dShape dimOut dimOut 3 1 1 r4).bind fun r5 =>
  ((if up then upShape xs else some xs).bind fun t1 =>
    if dimIn ≠ dimOut then conv2dShape dimIn dimOut 1 1 0 t1 else some t1).bind fun t2 =>
  bcShape r5 t2

/-- Signature of an encoder block, mirrored: (output width, input width,
downsample flag). -/
def resMirrorSig (r : ResBlock α) : Nat × Nat × Bool := (r.dimOut, r.dimIn, r.downsample)

/-- Signature of a decoder block: (input width, output width, upsample
flag). -/
def adaSig (a : AdaResBlock α) : Nat × Nat × Bool := (a.dimIn, a.dimOut, a.upsample)

/-!  ## Concrete instances used by the witnesses -/

/-- A concrete scalar context over the rationals (the claims proved
below do not depend on the numeric values of `sqrt2` and `sqrtA`). -/
def SCQ : ScalarCfg ℚ := ⟨2, fun q => q⟩

/-- The all-zero parameter supply. -/
def P0 : Nat → Nat → List Nat → ℚ := fun _ _ _ => 0

/-- The all-zero head-parameter supply for `MappingNetwork`. -/
def Ph0 : Nat → Nat → Nat → List Nat → ℚ := fun _ _ _ _ => 0

/-- The all-zero tensor of a given shape. -/
def zerosQ (s : List Nat) : Tensor ℚ := ⟨s, fun _ => 0⟩

/-- A discriminator whose pyramid is empty, so that its forward pass
starts directly from the input (used to exercise the gather step). -/
def dEmptyQ : Discriminator ℚ := ⟨[]⟩

/-- A concrete `(1, 2, 1, 1)` logit tensor: domain 0 has logit 0,
domain 1 has logit 5. -/
def outQ : Tensor ℚ := ⟨[1, 2, 1, 1], fun idx => if idx = [0, 1, 0, 0] then 5 else 0⟩

/-- A style encoder with an empty shared pyramid and one head. -/
def seQh : StyleEncoder ℚ := ⟨[], [mkLinear 2 1 (fun _ _ => 0)]⟩

/-- A concrete `(1, 2)` input. -/
def x12 : Tensor ℚ := zerosQ [1, 2]

/-- Fallback generator for `Option.getD`. -/
def genDefault : Generator ℚ := ⟨mkConv 3 1 3 1 1 (fun _ _ => 0), [], [], []⟩

/-- Fallback style encoder for `Option.getD`. -/
def seDefault : StyleEncoder ℚ := ⟨[], []⟩

/-- A concrete adaptive instance norm with `style_dim = num_features = 1`. -/
def adaQ : AdaptiveInstanceNorm ℚ := ⟨1, 1, fun _ => 0, fun _ => 0⟩

/-!  ## Shape correspondence

Every operation was defined through `shaped`, so its success, its error
and the shape of its result are determined by the pure shape functions.
The lemmas below lift this to blocks and sequentials. -/

/-- Success/error/shape characterisation of an operation built by
`shaped`. -/
theorem shaped_corr (msg : String) (s? : Option (List Nat)) (d : List Nat → α) :
    match s? with
    | some s => ∃ t, shaped msg s? d = .ok t ∧ t.shape = s
    | none => ∃ m, shaped msg s? d = .error m := by
  cases s? with
  | none => exact ⟨msg, rfl⟩
  | some s => exact ⟨⟨s, d⟩, rfl, rfl⟩

theorem shaped_shapeCorr (msg : String) (s? : Option (List Nat)) (d : List Nat → α) :
    ShapeCorr (shaped msg s? d) s? :=
  shaped_corr msg s? d

theorem ok_shapeCorr (t : Tensor α) : ShapeCorr (.ok t) (some t.shape) :=
  ⟨t, rfl, rfl⟩

theorem tmap_shape (f : α → α) (t : Tensor α) : (tmap f t).shape = t.shape := rfl

theorem leaky_shape (t : Tensor α) : (leakyApply t).shape = t.shape := rfl

theorem relu_shape (t : Tensor α) : (reluApply t).shape = t.shape := rfl

/-- Chaining shape correspondences through monadic bind. -/
theorem bind_shapeCorr {e : Except String (Tensor α)} {v : Option (List Nat)}
    (he : ShapeCorr e v) {k : Tensor α → Except String (Tensor α)}
    {g : List Nat → Option (List Nat)}
    (hk : ∀ t : Tensor α, ShapeCorr (k t) (g t.shape)) :
    ShapeCorr (e >>= k) (v.bind g) := by
  cases v with
  | none =>
    obtain ⟨m, hm⟩ := he
    subst hm
    exact ⟨m, rfl⟩
  | some s =>
    obtain ⟨t, ht, hts⟩ := he
    subst ht
    rw [Option.some_bind, ← hts]
    exact hk t

/-- A pure shape-preserving postcomposition keeps the correspondence. -/
theorem map_shapeCorr {e : Except String (Tensor α)} {sh : Option (List Nat)}
    (he : ShapeCorr e sh) (f : α → α) :
    ShapeCorr (e >>= fun t => .ok (tmap f t)) sh := by
  cases sh with
  | none =>
    obtain ⟨m, hm⟩ := he
    subst hm
    exact ⟨m, rfl⟩
  | some s =>
    obtain ⟨t, ht, hts⟩ := he
    subst ht
    exact ⟨tmap f t, rfl, hts⟩

/-- `ResBlock._residual` obeys the residual part of `resShapeS`. -/
theorem residualF_corr (SC : ScalarCfg α) (r : ResBlock α) (x : Tensor α) :
    ShapeCorr (r.residualF SC x)
      ((if r.normalize then instShape true r.dimIn x.shape else some x.shape).bind
        fun r1 => (conv2dShape r.dimIn r.dimIn 3 1 1 r1).bind
        fun r2 => (if r.downsample then poolShape r2 else some r2).bind
        fun r3 => (if r.normalize then instShape true r.dimIn r3 else some r3).bind
        fun r4 => conv2dShape r.dimIn r.dimOut 3 1 1 r4) := by
  unfold ResBlock.residualF
  refine bind_shapeCorr ?_ (fun t1 => ?_)
  · cases hnm : r.normalize with
    | false => simp only [Bool.false_eq_true, if_false]; exact ok_shapeCorr x
    | true => simp only [if_true]; exact shaped_shapeCorr _ _ _
  refine bind_shapeCorr (v := conv2dShape r.dimIn r.dimIn 3 1 1 t1.shape)
    (shaped_shapeCorr _ _ _) (fun t2 => ?_)
  refine bind_shapeCorr ?_ (fun t3 => ?_)
  · cases hdn : r.downsample with
    | false => simp only [Bool.false_eq_true, if_false]; exact ok_shapeCorr t2
    | true => simp only [if_true]; exact shaped_shapeCorr _ _ _
  refine bind_shapeCorr ?_ (fun t4 => ?_)
  · cases hnm : r.normalize with
    | false => simp only [Bool.false_eq_true, if_false]; exact ok_shapeCorr t3
    | true => simp only [if_true]; exact shaped_shapeCorr _ _ _
  exact shaped_shapeCorr _ _ _

/-- `ResBlock._shortcut` obeys the shortcut part of `resShapeS`. -/
theorem shortcutF_corr (r : ResBlock α) (x : Tensor α) :
    ShapeCorr (r.shortcutF x)
      ((if r.dimIn ≠ r.dimOut then conv2dShape r.dimIn r.dimOut 1 1 0 x.shape
          else some x.shape).bind
        fun t1 => if r.downsample then poolShape t1 else some t1) := by
  unfold ResBlock.shortcutF
  refine bind_shapeCorr ?_ (fun t1 => ?_)
  · by_cases h : r.dimIn = r.dimOut
    · simp only [h, ne_eq, not_true_eq_false, if_false]
      exact ok_shapeCorr x
    · simp only [ne_eq, h, not_false_eq_true, if_true]
      exact shaped_shapeCorr _ _ _
  · cases hdn : r.downsample with
    | false => simp only [Bool.false_eq_true, if_false]; exact ok_shapeCorr t1
    | true => simp only [if_true]; exact shaped_shapeCorr _ _ _

/-- `ResBlock.forward` obeys the pure shape function `resShapeS`. -/
theorem resForward_corr (SC : ScalarCfg α) (r : ResBlock α) (x : Tensor α) :
    ShapeCorr (r.forward SC x)
      (resShapeS r.dimIn r.dimOut r.downsample r.normalize x.shape) := by
  unfold ResBlock.forward resShapeS
  refine bind_shapeCorr (residualF_corr SC r x) (fun out => ?_)
  refine bind_shapeCorr (shortcutF_corr r x) (fun sc => ?_)
  exact map_shapeCorr (shaped_shapeCorr _ _ _) _

/-- Each layer kind obeys its pure shape function. -/
theorem layerForward_corr (SC : ScalarCfg α) (l : Layer α) (x : Tensor α) :
    ShapeCorr (layerForward SC l x) (layerShapeS (layerSig l) x.shape) := by
  cases l with
  | conv c => exact shaped_shapeCorr _ _ _
  | lin l => exact shaped_shapeCorr _ _ _
  | relu => exact ok_shapeCorr _
  | leaky => exact ok_shapeCorr _
  | inorm p => exact shaped_shapeCorr _ _ _
  | res r => exact resForward_corr SC r x

/-- An `nn.Sequential` obeys the pure shape function of its layer
signatures. -/
theorem seqForward_corr (SC : ScalarCfg α) (ls : List (Layer α)) (x : Tensor α) :
    ShapeCorr (seqForward SC ls x) (seqShape (ls.map layerSig) x.shape) := by
  induction ls generalizing x with
  | nil => exact ok_shapeCorr x
  | cons l ls ih =>
    have hstep := layerForward_corr SC l x
    simp only [seqForward, seqShape, List.map_cons, List.foldlM_cons]
    cases hsh : layerShapeS (layerSig l) x.shape with
    | none =>
      rw [hsh] at hstep
      obtain ⟨m, hm⟩ := hstep
      rw [hm]
      exact ⟨m, rfl⟩
    | some s =>
      rw [hsh] at hstep
      obtain ⟨t, ht, hts⟩ := hstep
      rw [ht]
      have : (Except.ok t >>= fun b => List.foldlM (fun t l => layerForward SC l t) b ls)
          = seqForward SC ls t := rfl
      rw [this]
      have hrec := ih t
      rw [hts] at hrec
      exact hrec

/-- Success transfer: if a sequential succeeds, the pure shape function
succeeds with the shape of the result. -/
theorem seqForward_ok_shape (SC : ScalarCfg α) (ls : List (Layer α)) (x t : Tensor α)
    (h : seqForward SC ls x = .ok t) :
    seqShape (ls.map layerSig) x.shape = some t.shape := by
  have hc := seqForward_corr SC ls x
  cases hsh : seqShape (ls.map layerSig) x.shape with
  | none =>
    rw [hsh] at hc
    obtain ⟨m, hm⟩ := hc
    rw [h] at hm
    exact absurd hm (by simp)
  | some s =>
    rw [hsh] at hc
    obtain ⟨u, hu, hus⟩ := hc
    rw [h] at hu
    cases hu
    rw [hus]

/-- Shape transfer: if the pure shape function succeeds, the sequential
succeeds with a tensor of that shape. -/
theorem seqForward_of_shape (SC : ScalarCfg α) (ls : List (Layer α)) (x : Tensor α)
    (s : List Nat) (h : seqShape (ls.map layerSig) x.shape = some s) :
    ∃ t, seqForward SC ls x = .ok t ∧ t.shape = s := by
  have hc := seqForward_corr SC ls x
  rw [h] at hc
  exact hc

/-- `chunk2` obeys `chunkShapeS`. -/
theorem chunk2_corr (x : Tensor α) :
    match chunkShapeS x.shape with
    | some p => ∃ g b, chunk2 x = .ok (g, b) ∧ g.shape = p.1 ∧ b.shape = p.2
    | none => ∃ m, chunk2 x = .error m := by
  match hs : x.shape with
  | [] => exact ⟨"chunk: rank too small", by unfold chunk2; rw [hs]⟩
  | [d0] => exact ⟨"chunk: rank too small", by unfold chunk2; rw [hs]⟩
  | d0 :: d1 :: rest =>
    refine ⟨_, _, by unfold chunk2; rw [hs], rfl, rfl⟩

/-- `AdaptiveInstanceNorm.forward` obeys `adaInShapeS`. -/
theorem adaInForward_corr (SC : ScalarCfg α) (m : AdaptiveInstanceNorm α)
    (x s : Tensor α) :
    ShapeCorr (AdaptiveInstanceNorm.forward SC m x s)
      (adaInShapeS m.styleDim m.nf x.shape s.shape) := by
  unfold AdaptiveInstanceNorm.forward adaInShapeS
  refine bind_shapeCorr (shaped_shapeCorr _ _ _) (fun h => ?_)
  refine bind_shapeCorr (shaped_shapeCorr _ _ _) (fun h4 => ?_)
  have hch := chunk2_corr h4
  cases hsh : chunkShapeS h4.shape with
  | none =>
    rw [hsh] at hch
    obtain ⟨m1, hm⟩ := hch
    rw [hm, Option.none_bind]
    exact ⟨m1, rfl⟩
  | some p =>
    rw [hsh] at hch
    obtain ⟨g, b, hgb, hg, hb⟩ := hch
    rw [hgb, Option.some_bind]
    show ShapeCorr
      (instNormApply SC ⟨false, m.nf, fun _ => 0, fun _ => 0⟩ x >>= fun nx =>
        bcBinOp (fun a b => a * b) (tmap (fun g => 1 + g) g) nx >>= fun t1 =>
        bcBinOp (fun a b => a + b) t1 b) _
    rw [← hg, ← hb]
    refine bind_shapeCorr (shaped_shapeCorr _ _ _) (fun nx => ?_)
    refine bind_shapeCorr (v := bcShape g.shape nx.shape)
      (shaped_shapeCorr _ _ _) (fun t1 => ?_)
    exact shaped_shapeCorr _ _ _

/-- `AdaResBlock.forward` obeys `adaShapeS`. -/
theorem adaForward_corr (SC : ScalarCfg α) (r : AdaResBlock α) (x s : Tensor α) :
    ShapeCorr (r.forward SC x s)
      (adaShapeS r.dimIn r.dimOut r.styleDim r.upsample x.shape s.shape) := by
  have hres : ShapeCorr (r.residualF SC x s)
      ((adaInShapeS r.styleDim r.dimIn x.shape s.shape).bind fun r1 =>
        (if r.upsample then upShape r1 else some r1).bind fun r2 =>
        (conv2dShape r.dimIn r.dimOut 3 1 1 r2).bind fun r3 =>
        (adaInShapeS r.styleDim r.dimOut r3 s.shape).bind fun r4 =>
        conv2dShape r.dimOut r.dimOut 3 1 1 r4) := by
    unfold AdaResBlock.residualF
    refine bind_shapeCorr (adaInForward_corr SC _ x s) (fun t1 => ?_)
    refine bind_shapeCorr (v := if r.upsample then upShape t1.shape else some t1.shape)
      ?_ (fun t2 => ?_)
    · cases hup : r.upsample with
      | false => simp only [Bool.false_eq_true, if_false]; exact ok_shapeCorr _
      | true => simp only [if_true]; exact shaped_shapeCorr _ _ _
    refine bind_shapeCorr (shaped_shapeCorr _ _ _) (fun t3 => ?_)
    refine bind_shapeCorr (adaInForward_corr SC _ t3 s) (fun t4 => ?_)
    exact shaped_shapeCorr _ _ _
  have hshort : ShapeCorr (r.shortcutF x)
      ((if r.upsample then upShape x.shape else some x.shape).bind fun t1 =>
        if r.dimIn ≠ r.dimOut then conv2dShape r.dimIn r.dimOut 1 1 0 t1 else some t1) := by
    unfold AdaResBlock.shortcutF
    refine bind_shapeCorr ?_ (fun t1 => ?_)
    · cases hup : r.upsample with
      | false => simp only [Bool.false_eq_true, if_false]; exact ok_shapeCorr _
      | true => simp only [if_true]; exact shaped_shapeCorr _ _ _
    · by_cases h : r.dimIn = r.dimOut
      · simp only [h, ne_eq, not_true_eq_false, if_false]
        exact ok_shapeCorr _
      · simp only [ne_eq, h, not_false_eq_true, if_true]
        exact shaped_shapeCorr _ _ _
  unfold AdaResBlock.forward adaShapeS
  refine bind_shapeCorr hres (fun out => ?_)
  refine bind_shapeCorr hshort (fun sc => ?_)
  exact map_shapeCorr (shaped_shapeCorr _ _ _) _

/-!  ## Concrete shape computations -/

theorem convOutDim_3 (H : Nat) (h : 1 ≤ H) : convOutDim 3 1 1 H = some H := by
  unfold convOutDim
  rw [if_pos (by omega)]
  congr 1
  omega

theorem convOutDim_1 (H : Nat) (h : 1 ≤ H) : convOutDim 1 1 0 H = some H := by
  unfold convOutDim
  rw [if_pos (by omega)]
  congr 1
  omega

theorem conv2dShape_k3 (inC outC N H W : Nat) (hH : 1 ≤ H) (hW : 1 ≤ W) :
    conv2dShape inC outC 3 1 1 [N, inC, H, W] = some [N, outC, H, W] := by
  simp [conv2dShape, convOutDim_3 H hH, convOutDim_3 W hW]

theorem conv2dShape_k1 (inC outC N H W : Nat) (hH : 1 ≤ H) (hW : 1 ≤ W) :
    conv2dShape inC outC 1 1 0 [N, inC, H, W] = some [N, outC, H, W] := by
  simp [conv2dShape, convOutDim_1 H hH, convOutDim_1 W hW]

theorem instShape_at (af : Bool) (nf N H W : Nat) (h : 1 < H * W) :
    instShape af nf [N, nf, H, W] = some [N, nf, H, W] := by
  simp [instShape, h]

theorem poolShape_at (N c H W : Nat) (hH : 2 ≤ H) (hW : 2 ≤ W) :
    poolShape [N, c, H, W] = some [N, c, H / 2, W / 2] := by
  simp [poolShape, hH, hW]

theorem bcDim_self (a : Nat) : bcDim a a = some a := by
  simp [bcDim]

theorem bcShape_self (s : List Nat) : bcShape s s = some s := by
  induction s with
  | nil => rfl
  | cons a t ih => simp [bcShape, bcDim_self, ih]

theorem bcDim_one_left (b : Nat) : bcDim 1 b = some b := by
  by_cases h : 1 = b
  · simp [bcDim, h]
  · simp [bcDim, h]

theorem bcDim_one_right (a : Nat) : bcDim a 1 = some a := by
  by_cases h : a = 1
  · simp [bcDim, h]
  · simp [bcDim, h]

/-- `resShapeS` on a downsampling, normalising block. -/
theorem resShapeS_dn_nm (dIn dOut N H W : Nat) (h2H : 2 ≤ H) (h2W : 2 ≤ W)
    (hp : 1 < H / 2 * (W / 2)) :
    resShapeS dIn dOut true true [N, dIn, H, W] = some [N, dOut, H / 2, W / 2] := by
  have hH1 : 1 ≤ H := by omega
  have hW1 : 1 ≤ W := by omega
  have hHW : 1 < H * W := by nlinarith
  have hH2 : 1 ≤ H / 2 := by omega
  have hW2 : 1 ≤ W / 2 := by
    by_contra hc
    have hw0 : W / 2 = 0 := by omega
    rw [hw0] at hp
    omega
  by_cases hio : dIn = dOut
  · subst hio
    simp [resShapeS, instShape_at true dIn N H W hHW,
      conv2dShape_k3 dIn dIn N H W hH1 hW1, poolShape_at N dIn H W h2H h2W,
      instShape_at true dIn N (H / 2) (W / 2) hp,
      conv2dShape_k3 dIn dIn N (H / 2) (W / 2) hH2 hW2, bcShape_self]
  · simp [resShapeS, hio, instShape_at true dIn N H W hHW,
      conv2dShape_k3 dIn dIn N H W hH1 hW1, poolShape_at N dIn H W h2H h2W,
      instShape_at true dIn N (H / 2) (W / 2) hp,
      conv2dShape_k3 dIn dOut N (H / 2) (W / 2) hH2 hW2,
      conv2dShape_k1 dIn dOut N H W hH1 hW1, poolShape_at N dOut H W h2H h2W,
      bcShape_self]

/-- `resShapeS` on a width-preserving, normalising, non-downsampling
block. -/
theorem resShapeS_nm (d N H W : Nat) (h : 1 < H * W) :
    resShapeS d d false true [N, d, H, W] = some [N, d, H, W] := by
  have hH1 : 1 ≤ H := by
    by_contra hc
    have h0 : H = 0 := by omega
    rw [h0] at h
    omega
  have hW1 : 1 ≤ W := by
    by_contra hc
    have h0 : W = 0 := by omega
    rw [h0] at h
    omega
  simp [resShapeS, instShape_at true d N H W h, conv2dShape_k3 d d N H W hH1 hW1,
    bcShape_self]

/-- `adaInShapeS` on a matching feature map and a rank-2 style vector
with the same batch. -/
theorem adaInShapeS_at (sd nf N H W : Nat) (h : 1 < H * W) :
    adaInShapeS sd nf [N, nf, H, W] [N, sd] = some [N, nf, H, W] := by
  have hlin : linShape sd (2 * nf) [N, sd] = some [N, 2 * nf] := by
    unfold linShape
    rw [if_pos ⟨by simp, rfl⟩]
    rfl
  have hchunk : chunkShapeS [N, 2 * nf, 1, 1] = some ([N, nf, 1, 1], [N, nf, 1, 1]) := by
    simp only [chunkShapeS, Option.some.injEq, Prod.mk.injEq, List.cons.injEq,
      and_true, true_and]
    omega
  have hbc1 : bcShape [N, nf, 1, 1] [N, nf, H, W] = some [N, nf, H, W] := by
    simp [bcShape, bcDim_self, bcDim_one_left]
  have hbc2 : bcShape [N, nf, H, W] [N, nf, 1, 1] = some [N, nf, H, W] := by
    simp [bcShape, bcDim_self, bcDim_one_right]
  simp [adaInShapeS, hlin, hchunk, instShape_at false nf N H W h, hbc1, hbc2,
    view4ShapeS]

/-- `adaShapeS` on an upsampling block. -/
theorem adaShapeS_up (dIn dOut sd N H W : Nat) (h : 1 < H * W) :
    adaShapeS dIn dOut sd true [N, dIn, H, W] [N, sd]
      = some [N, dOut, 2 * H, 2 * W] := by
  have hH1 : 1 ≤ 2 * H := by
    by_contra hc
    have : H = 0 := by omega
    rw [this] at h
    omega
  have hW1 : 1 ≤ 2 * W := by
    by_contra hc
    have : W = 0 := by omega
    rw [this] at h
    omega
  have h4 : 1 < 2 * H * (2 * W) := by nlinarith
  have hup : upShape [N, dIn, H, W] = some [N, dIn, 2 * H, 2 * W] := rfl
  by_cases hio : dIn = dOut
  · subst hio
    simp [adaShapeS, adaInShapeS_at sd dIn N H W h, hup,
      conv2dShape_k3 dIn dIn N (2 * H) (2 * W) hH1 hW1,
      adaInShapeS_at sd dIn N (2 * H) (2 * W) h4, bcShape_self]
  · simp [adaShapeS, hio, adaInShapeS_at sd dIn N H W h, hup,
      conv2dShape_k3 dIn dOut N (2 * H) (2 * W) hH1 hW1,
      adaInShapeS_at sd dOut N (2 * H) (2 * W) h4,
      conv2dShape_k3 dOut dOut N (2 * H) (2 * W) hH1 hW1,
      conv2dShape_k1 dIn dOut N (2 * H) (2 * W) hH1 hW1, bcShape_self]

/-- `adaShapeS` on a width-preserving, non-upsampling block. -/
theorem adaShapeS_flat (d sd N H W : Nat) (h : 1 < H * W) :
    adaShapeS d d sd false [N, d, H, W] [N, sd] = some [N, d, H, W] := by
  have hH1 : 1 ≤ H := by
    by_contra hc
    have : H = 0 := by omega
    rw [this] at h
    omega
  have hW1 : 1 ≤ W := by
    by_contra hc
    have : W = 0 := by omega
    rw [this] at h
    omega
  simp [adaShapeS, adaInShapeS_at sd d N H W h, conv2dShape_k3 d d N H W hH1 hW1,
    bcShape_self]

/-!  ## Folding the generator pyramid -/

theorem spatial_one_lt (n h w : Nat) (hw : 1 < h * w) :
    1 < 2 ^ n * h * (2 ^ n * w) := by
  have h2 : 0 < 2 ^ n := by positivity
  have h1 : h * w ≤ 2 ^ n * h * (2 ^ n * w) := by
    calc h * w ≤ 2 ^ n * h * w := Nat.mul_le_mul_right w (Nat.le_mul_of_pos_left h h2)
      _ ≤ 2 ^ n * h * (2 ^ n * w) :=
        Nat.mul_le_mul_left _ (Nat.le_mul_of_pos_left w h2)
  omega

theorem two_le_pow_mul (n h : Nat) (hh : 1 ≤ h) : 2 ≤ 2 ^ (n + 1) * h := by
  have h2 : 1 ≤ 2 ^ n := Nat.one_le_two_pow
  have h3 : 2 ≤ 2 ^ (n + 1) := by
    rw [pow_succ]
    omega
  calc 2 ≤ 2 ^ (n + 1) := h3
    _ ≤ 2 ^ (n + 1) * h := Nat.le_mul_of_pos_right _ (by omega)

theorem pow_succ_half (n h : Nat) : 2 ^ (n + 1) * h / 2 = 2 ^ n * h := by
  have he : 2 ^ (n + 1) * h = 2 * (2 ^ n * h) := by ring
  rw [he]
  exact Nat.mul_div_cancel_left _ (by norm_num)

/-- Folding the encoder blocks produced by the generator loop over an
input of spatial extent `2 ^ n * h` by `2 ^ n * w` succeeds and reaches
the bottleneck width at spatial extent `h` by `w`. -/
theorem genEncoder_fold (SC : ScalarCfg α) (sd maxd : Nat)
    (P : Nat → Nat → List Nat → α) :
    ∀ (n i dIn N h w : Nat) (x : Tensor α), 1 < h * w →
    x.shape = [N, dIn, 2 ^ n * h, 2 ^ n * w] →
    ∃ t, (genPyramid sd maxd P i dIn n).1.foldlM (fun t r => r.forward SC t) x = .ok t ∧
      t.shape = [N, (genPyramid sd maxd P i dIn n).2.2, h, w] := by
  intro n
  induction n with
  | zero =>
    intro i dIn N h w x hw hx
    refine ⟨x, rfl, ?_⟩
    simpa [genPyramid] using hx
  | succ n ih =>
    intro i dIn N h w x hw hx
    have hh1 : 1 ≤ h := by
      by_contra hc
      have h0 : h = 0 := by omega
      rw [h0] at hw
      omega
    have hw1 : 1 ≤ w := by
      by_contra hc
      have h0 : w = 0 := by omega
      rw [h0] at hw
      omega
    have h2n : 1 ≤ 2 ^ n := Nat.one_le_two_pow
    have hsh : resShapeS dIn (min (dIn * 2) maxd) true true x.shape
        = some [N, min (dIn * 2) maxd, 2 ^ n * h, 2 ^ n * w] := by
      rw [hx]
      have hstep := resShapeS_dn_nm dIn (min (dIn * 2) maxd) N
        (2 ^ (n + 1) * h) (2 ^ (n + 1) * w)
        (two_le_pow_mul n h hh1) (two_le_pow_mul n w hw1)
        (by rw [pow_succ_half, pow_succ_half]; exact spatial_one_lt n h w hw)
      rw [hstep, pow_succ_half, pow_succ_half]
    have hcorr := resForward_corr SC (mkRes dIn (min (dIn * 2) maxd) true true (P i)) x
    rw [show (mkRes dIn (min (dIn * 2) maxd) true true (P i)).dimIn = dIn from rfl,
      show (mkRes dIn (min (dIn * 2) maxd) true true (P i)).dimOut
        = min (dIn * 2) maxd from rfl,
      show (mkRes dIn (min (dIn * 2) maxd) true true (P i)).downsample = true from rfl,
      show (mkRes dIn (min (dIn * 2) maxd) true true (P i)).normalize = true from rfl,
      hsh] at hcorr
    obtain ⟨t1, ht1, hsh1⟩ := hcorr
    obtain ⟨t, ht, hts⟩ := ih (i + 2) (min (dIn * 2) maxd) N h w t1 hw (by rw [hsh1])
    refine ⟨t, ?_, ?_⟩
    · show ((mkRes dIn (min (dIn * 2) maxd) true true (P i) ::
        (genPyramid sd maxd P (i + 2) (min (dIn * 2) maxd) n).1).foldlM
          (fun t r => r.forward SC t) x) = .ok t
      rw [List.foldlM_cons, ht1]
      exact ht
    · rw [hts]
      rfl

/-- Folding the decoder blocks produced by the generator loop over a
bottleneck-width input of spatial extent `h` by `w` succeeds and
restores width `dIn` at spatial extent `2 ^ n * h` by `2 ^ n * w`. -/
theorem genDecoder_fold (SC : ScalarCfg α) (sd maxd : Nat)
    (P : Nat → Nat → List Nat → α) :
    ∀ (n i dIn N h w : Nat) (x s : Tensor α), 1 < h * w →
    x.shape = [N, (genPyramid sd maxd P i dIn n).2.2, h, w] →
    s.shape = [N, sd] →
    ∃ t, (genPyramid sd maxd P i dIn n).2.1.foldlM
        (fun t r => r.forward SC t s) x = .ok t ∧
      t.shape = [N, dIn, 2 ^ n * h, 2 ^ n * w] := by
  intro n
  induction n with
  | zero =>
    intro i dIn N h w x s hw hx hs
    refine ⟨x, rfl, ?_⟩
    simpa [genPyramid] using hx
  | succ n ih =>
    intro i dIn N h w x s hw hx hs
    have hxr : x.shape
        = [N, (genPyramid sd maxd P (i + 2) (min (dIn * 2) maxd) n).2.2, h, w] := hx
    obtain ⟨t1, ht1, hsh1⟩ := ih (i + 2) (min (dIn * 2) maxd) N h w x s hw hxr hs
    have hspat := spatial_one_lt n h w hw
    have hada := adaForward_corr SC
      (mkAda (min (dIn * 2) maxd) dIn sd true (P (i + 1))) t1 s
    rw [show (mkAda (min (dIn * 2) maxd) dIn sd true (P (i + 1))).dimIn
        = min (dIn * 2) maxd from rfl,
      show (mkAda (min (dIn * 2) maxd) dIn sd true (P (i + 1))).dimOut = dIn from rfl,
      show (mkAda (min (dIn * 2) maxd) dIn sd true (P (i + 1))).styleDim = sd from rfl,
      show (mkAda (min (dIn * 2) maxd) dIn sd true (P (i + 1))).upsample = true from rfl,
      hsh1, hs,
      adaShapeS_up (min (dIn * 2) maxd) dIn sd N (2 ^ n * h) (2 ^ n * w) hspat]
      at hada
    obtain ⟨t, ht, hts⟩ := hada
    refine ⟨t, ?_, ?_⟩
    · show (((genPyramid sd maxd P (i + 2) (min (dIn * 2) maxd) n).2.1 ++
        [mkAda (min (dIn * 2) maxd) dIn sd true (P (i + 1))]).foldlM
          (fun t r => r.forward SC t s) x) = .ok t
      rw [List.foldlM_append, ht1]
      show (mkAda (min (dIn * 2) maxd) dIn sd true (P (i + 1))).forward SC t1 s >>=
        (fun b => pure b) = .ok t
      rw [ht]
      rfl
    · rw [hts]
      have he1 : 2 * (2 ^ n * h) = 2 ^ (n + 1) * h := by ring
      have he2 : 2 * (2 ^ n * w) = 2 ^ (n + 1) * w := by ring
      rw [he1, he2]

theorem ok_bind {β γ : Type} (a : β) (k : β → Except String γ) :
    (Except.ok a >>= k : Except String γ) = k a := rfl

/-- Claim C5: for every valid configuration (`img_size = 2 ^ k` with
`k ≥ 5`, arbitrary `style_dim` and `max_conv_dim`) and arbitrary
parameters, `Generator.forward` on an image of shape
`(batch, 3, img_size, img_size)` with a style vector of shape
`(batch, style_dim)` succeeds and returns a tensor of shape
`(batch, 3, img_size, img_size)`: the channel count (3) and the spatial
extents of the input are preserved. -/
theorem C5_generator_forward_preserves_shape (SC : ScalarCfg α)
    (k N styleDim maxConvDim : Nat) (P : Nat → Nat → List Nat → α)
    (g : Generator α) (x s : Tensor α) (hk : 5 ≤ k)
    (hg : genInit (2 ^ k) styleDim maxConvDim P = some g)
    (hx : x.shape = [N, 3, 2 ^ k, 2 ^ k]) (hs : s.shape = [N, styleDim]) :
    ∃ t, g.forward SC x s = .ok t ∧ t.shape = [N, 3, 2 ^ k, 2 ^ k] := by
  have hlog : Nat.log2 (2 ^ k) = k := by
    rw [Nat.log2_eq_log_two]
    exact Nat.log_pow (by norm_num) k
  have hne : ¬(Nat.log2 (2 ^ k) - 4 = 0) := by
    rw [hlog]
    omega
  have hfin : genFin styleDim maxConvDim (2 ^ k) P
      = (genPyramid styleDim maxConvDim P 2 (2 ^ 14 / 2 ^ k) (k - 4)).2.2 := by
    unfold genFin
    rw [hlog]
  have hd0 : (1 : Nat) ≤ 2 ^ k := Nat.one_le_two_pow
  have h32 : 32 ≤ 2 ^ k := by
    calc (32 : Nat) = 2 ^ 5 := by norm_num
      _ ≤ 2 ^ k := Nat.pow_le_pow_right (by norm_num) hk
  have hbig : 1 < 2 ^ k * 2 ^ k := by nlinarith
  have h16 : (2 : Nat) ^ (k - 4) * 16 = 2 ^ k := by
    have h4 : (16 : Nat) = 2 ^ 4 := by norm_num
    rw [h4, ← pow_add]
    congr 1
    omega
  unfold genInit at hg
  rw [if_neg hne] at hg
  have hgeq := Option.some.inj hg
  subst hgeq
  rw [hlog, hfin] at *
  -- input stem
  have h1 : ShapeCorr (convApply (mkConv 3 (2 ^ 14 / 2 ^ k) 3 1 1 (P 0)) x)
      (conv2dShape 3 (2 ^ 14 / 2 ^ k) 3 1 1 x.shape) := shaped_shapeCorr _ _ _
  rw [hx, conv2dShape_k3 3 (2 ^ 14 / 2 ^ k) N (2 ^ k) (2 ^ k) hd0 hd0] at h1
  obtain ⟨x1, hx1, hx1s⟩ := h1
  -- encoder pyramid
  obtain ⟨t2, ht2, ht2s⟩ := genEncoder_fold SC styleDim maxConvDim P (k - 4) 2
    (2 ^ 14 / 2 ^ k) N 16 16 x1 (by norm_num) (by rw [hx1s, h16])
  -- bottleneck encoder blocks
  have hb1 := resForward_corr SC
    (mkRes (genPyramid styleDim maxConvDim P 2 (2 ^ 14 / 2 ^ k) (k - 4)).2.2
      (genPyramid styleDim maxConvDim P 2 (2 ^ 14 / 2 ^ k) (k - 4)).2.2
      false true (P 900)) t2
  rw [show (mkRes (genPyramid styleDim maxConvDim P 2 (2 ^ 14 / 2 ^ k) (k - 4)).2.2
      (genPyramid styleDim maxConvDim P 2 (2 ^ 14 / 2 ^ k) (k - 4)).2.2
      false true (P 900)).dimIn
      = (genPyramid styleDim maxConvDim P 2 (2 ^ 14 / 2 ^ k) (k - 4)).2.2 from rfl,
    show (mkRes (genPyramid styleDim maxConvDim P 2 (2 ^ 14 / 2 ^ k) (k - 4)).2.2
      (genPyramid styleDim maxConvDim P 2 (2 ^ 14 / 2 ^ k) (k - 4)).2.2
      false true (P 900)).dimOut
      = (genPyramid styleDim maxConvDim P 2 (2 ^ 14 / 2 ^ k) (k - 4)).2.2 from rfl,
    show (mkRes (genPyramid styleDim maxConvDim P 2 (2 ^ 14 / 2 ^ k) (k - 4)).2.2
      (genPyramid styleDim maxConvDim P 2 (2 ^ 14 / 2 ^ k) (k - 4)).2.2
      false true (P 900)).downsample = false from rfl,
    show (mkRes (genPyramid styleDim maxConvDim P 2 (2 ^ 14 / 2 ^ k) (k - 4)).2.2
      (genPyramid styleDim maxConvDim P 2 (2 ^ 14 / 2 ^ k) (k - 4)).2.2
      false true (P 900)).normalize = true from rfl,
    ht2s,
    resShapeS_nm (genPyramid styleDim maxConvDim P 2 (2 ^ 14 / 2 ^ k) (k - 4)).2.2
      N 16 16 (by norm_num)] at hb1
  obtain ⟨t3, ht3, ht3s⟩ := hb1
  have hb2 := resForward_corr SC
    (mkRes (genPyramid styleDim maxConvDim P 2 (2 ^ 14 / 2 ^ k) (k - 4)).2.2
      (genPyramid styleDim maxConvDim P 2 (2 ^ 14 / 2 ^ k) (k - 4)).2.2
      false true (P 902)) t3
  rw [show (mkRes (genPyramid styleDim maxConvDim P 2 (2 ^ 14 / 2 ^ k) (k - 4)).2.2
      (genPyramid styleDim maxConvDim P 2 (2 ^ 14 / 2 ^ k) (k - 4)).2.2
      false true (P 902)).dimIn
      = (genPyramid styleDim maxConvDim P 2 (2 ^ 14 / 2 ^ k) (k - 4)).2.2 from rfl,
    show (mkRes (genPyramid styleDim maxConvDim P 2 (2 ^ 14 / 2 ^ k) (k - 4)).2.2
      (genPyramid styleDim maxConvDim P 2 (2 ^ 14 / 2 ^ k) (k - 4)).2.2
      false true (P 902)).dimOut
      = (genPyramid styleDim maxConvDim P 2 (2 ^ 14 / 2 ^ k) (k - 4)).2.2 from rfl,
    show (mkRes (genPyramid styleDim maxConvDim P 2 (2 ^ 14 / 2 ^ k) (k - 4)).2.2
      (genPyramid styleDim maxConvDim P 2 (2 ^ 14 / 2 ^ k) (k - 4)).2.2
      false true (P 902)).downsample = false from rfl,
    show (mkRes (genPyramid styleDim maxConvDim P 2 (2 ^ 14 / 2 ^ k) (k - 4)).2.2
      (genPyramid styleDim maxConvDim P 2 (2 ^ 14 / 2 ^ k) (k - 4)).2.2
      false true (P 902)).normalize = true from rfl,
    ht3s,
    resShapeS_nm (genPyramid styleDim maxConvDim P 2 (2 ^ 14 / 2 ^ k) (k - 4)).2.2
      N 16 16 (by norm_num)] at hb2
  obtain ⟨t4, ht4, ht4s⟩ := hb2
  -- bottleneck decoder blocks
  have ha1 := adaForward_corr SC
    (mkAda (genPyramid styleDim maxConvDim P 2 (2 ^ 14 / 2 ^ k) (k - 4)).2.2
      (genPyramid styleDim maxConvDim P 2 (2 ^ 14 / 2 ^ k) (k - 4)).2.2
      styleDim false (P 903)) t4 s
  rw [show (mkAda (genPyramid styleDim maxConvDim P 2 (2 ^ 14 / 2 ^ k) (k - 4)).2.2
      (genPyramid styleDim maxConvDim P 2 (2 ^ 14 / 2 ^ k) (k - 4)).2.2
      styleDim false (P 903)).dimIn
      = (genPyramid styleDim maxConvDim P 2 (2 ^ 14 / 2 ^ k) (k - 4)).2.2 from rfl,
    show (mkAda (genPyramid styleDim maxConvDim P 2 (2 ^ 14 / 2 ^ k) (k - 4)).2.2
      (genPyramid styleDim maxConvDim P 2 (2 ^ 14 / 2 ^ k) (k - 4)).2.2
      styleDim false (P 903)).dimOut
      = (genPyramid styleDim maxConvDim P 2 (2 ^ 14 / 2 ^ k) (k - 4)).2.2 from rfl,
    show (mkAda (genPyramid styleDim maxConvDim P 2 (2 ^ 14 / 2 ^ k) (k - 4)).2.2
      (genPyramid styleDim maxConvDim P 2 (2 ^ 14 / 2 ^ k) (k - 4)).2.2
      styleDim false (P 903)).styleDim = styleDim from rfl,
    show (mkAda (genPyramid styleDim maxConvDim P 2 (2 ^ 14 / 2 ^ k) (k - 4)).2.2
      (genPyramid styleDim maxConvDim P 2 (2 ^ 14 / 2 ^ k) (k - 4)).2.2
      styleDim false (P 903)).upsample = false from rfl,
    ht4s, hs,
    adaShapeS_flat (genPyramid styleDim maxConvDim P 2 (2 ^ 14 / 2 ^ k) (k - 4)).2.2
      styleDim N 16 16 (by norm_num)] at ha1
  obtain ⟨t5, ht5, ht5s⟩ := ha1
  have ha2 := adaForward_corr SC
    (mkAda (genPyramid styleDim maxConvDim P 2 (2 ^ 14 / 2 ^ k) (k - 4)).2.2
      (genPyramid styleDim maxConvDim P 2 (2 ^ 14 / 2 ^ k) (k - 4)).2.2
      styleDim false (P 901)) t5 s
  rw [show (mkAda (genPyramid styleDim maxConvDim P 2 (2 ^ 14 / 2 ^ k) (k - 4)).2.2
      (genPyramid styleDim maxConvDim P 2 (2 ^ 14 / 2 ^ k) (k - 4)).2.2
      styleDim false (P 901)).dimIn
      = (genPyramid styleDim maxConvDim P 2 (2 ^ 14 / 2 ^ k) (k - 4)).2.2 from rfl,
    show (mkAda (genPyramid styleDim maxConvDim P 2 (2 ^ 14 / 2 ^ k) (k - 4)).2.2
      (genPyramid styleDim maxConvDim P 2 (2 ^ 14 / 2 ^ k) (k - 4)).2.2
      styleDim false (P 901)).dimOut
      = (genPyramid styleDim maxConvDim P 2 (2 ^ 14 / 2 ^ k) (k - 4)).2.2 from rfl,
    show (mkAda (genPyramid styleDim maxConvDim P 2 (2 ^ 14 / 2 ^ k) (k - 4)).2.2
      (genPyramid styleDim maxConvDim P 2 (2 ^ 14 / 2 ^ k) (k - 4)).2.2
      styleDim false (P 901)).styleDim = styleDim from rfl,
    show (mkAda (genPyramid styleDim maxConvDim P 2 (2 ^ 14 / 2 ^ k) (k - 4)).2.2
      (genPyramid styleDim maxConvDim P 2 (2 ^ 14 / 2 ^ k) (k - 4)).2.2
      styleDim false (P 901)).upsample = false from rfl,
    ht5s, hs,
    adaShapeS_flat (genPyramid styleDim maxConvDim P 2 (2 ^ 14 / 2 ^ k) (k - 4)).2.2
      styleDim N 16 16 (by norm_num)] at ha2
  obtain ⟨t6, ht6, ht6s⟩ := ha2
  -- decoder pyramid
  obtain ⟨t7, ht7, ht7s⟩ := genDecoder_fold SC styleDim maxConvDim P (k - 4) 2
    (2 ^ 14 / 2 ^ k) N 16 16 t6 s (by norm_num) ht6s hs
  rw [h16] at ht7s
  -- output stem
  have hseq : seqShape
      (([Layer.inorm ⟨true, 2 ^ 14 / 2 ^ k, fun c => P 1 0 [c], fun c => P 1 1 [c]⟩,
         Layer.leaky,
         Layer.conv (mkConv (2 ^ 14 / 2 ^ k) 3 1 1 0 (P 1))] : List (Layer α)).map layerSig)
      t7.shape = some [N, 3, 2 ^ k, 2 ^ k] := by
    rw [ht7s]
    simp [seqShape, layerSig, layerShapeS, List.foldlM, mkConv,
      instShape_at true (16384 / 2 ^ k) N (2 ^ k) (2 ^ k) hbig,
      conv2dShape_k1 (16384 / 2 ^ k) 3 N (2 ^ k) (2 ^ k) hd0 hd0]
  obtain ⟨t8, ht8, ht8s⟩ := seqForward_of_shape SC _ t7 _ hseq
  refine ⟨t8, ?_, ht8s⟩
  dsimp only [Generator.forward]
  rw [hx1, ok_bind, List.foldlM_append, ht2, ok_bind, List.foldlM_cons, ht3, ok_bind,
    List.foldlM_cons, ht4, ok_bind, List.foldlM_nil]
  rw [show ((pure t4 : Except String (Tensor α)) >>= fun x2 =>
      ([mkAda (genPyramid styleDim maxConvDim P 2 (2 ^ 14 / 2 ^ k) (k - 4)).2.2
          (genPyramid styleDim maxConvDim P 2 (2 ^ 14 / 2 ^ k) (k - 4)).2.2
          styleDim false (P 903),
        mkAda (genPyramid styleDim maxConvDim P 2 (2 ^ 14 / 2 ^ k) (k - 4)).2.2
          (genPyramid styleDim maxConvDim P 2 (2 ^ 14 / 2 ^ k) (k - 4)).2.2
          styleDim false (P 901)] ++
          (genPyramid styleDim maxConvDim P 2 (2 ^ 14 / 2 ^ k) (k - 4)).2.1).foldlM
            (fun t r => r.forward SC t s) x2 >>= fun x3 =>
        seqForward SC
          [Layer.inorm ⟨true, 2 ^ 14 / 2 ^ k, fun c => P 1 0 [c], fun c => P 1 1 [c]⟩,
           Layer.leaky, Layer.conv (mkConv (2 ^ 14 / 2 ^ k) 3 1 1 0 (P 1))] x3)
      = (([mkAda (genPyramid styleDim maxConvDim P 2 (2 ^ 14 / 2 ^ k) (k - 4)).2.2
          (genPyramid styleDim maxConvDim P 2 (2 ^ 14 / 2 ^ k) (k - 4)).2.2
          styleDim false (P 903),
        mkAda (genPyramid styleDim maxConvDim P 2 (2 ^ 14 / 2 ^ k) (k - 4)).2.2
          (genPyramid styleDim maxConvDim P 2 (2 ^ 14 / 2 ^ k) (k - 4)).2.2
          styleDim false (P 901)] ++
          (genPyramid styleDim maxConvDim P 2 (2 ^ 14 / 2 ^ k) (k - 4)).2.1).foldlM
            (fun t r => r.forward SC t s) t4 >>= fun x3 =>
        seqForward SC
          [Layer.inorm ⟨true, 2 ^ 14 / 2 ^ k, fun c => P 1 0 [c], fun c => P 1 1 [c]⟩,
           Layer.leaky, Layer.conv (mkConv (2 ^ 14 / 2 ^ k) 3 1 1 0 (P 1))] x3) from rfl]
  rw [List.cons_append, List.cons_append, List.nil_append, List.foldlM_cons, ht5,
    ok_bind, List.foldlM_cons, ht6, ok_bind, ht7, ok_bind, ht8]

/-!  ## The encoder/decoder mirror -/

theorem genPyramid_mirror (sd maxd : Nat) (P : Nat → Nat → List Nat → α) :
    ∀ (n i dIn : Nat),
    (genPyramid sd maxd P i dIn n).2.1.map adaSig
      = ((genPyramid sd maxd P i dIn n).1.map resMirrorSig).reverse := by
  intro n
  induction n with
  | zero => intro i dIn; rfl
  | succ n ih =>
    intro i dIn
    simp only [genPyramid, List.map_append, List.map_cons, List.map_nil,
      List.reverse_cons, ih]
    rfl

/-- Claim C6: in `Generator.__init__` the decoder is the mirror image of
the encoder: reading the decoder in forward order gives exactly the
reversed encoder with input/output widths swapped, and a decoder block
upsamples exactly when the mirrored encoder block downsamples.  (Both
sides are `none` exactly when construction fails, cf. C10.) -/
theorem C6_generator_channel_palindrome (imgSize styleDim maxConvDim : Nat)
    (P : Nat → Nat → List Nat → α) :
    ((genInit imgSize styleDim maxConvDim P : Option (Generator α)).map
        (fun g => g.decoder.map adaSig))
      = ((genInit imgSize styleDim maxConvDim P).map
        (fun g => (g.encoder.map resMirrorSig).reverse)) := by
  by_cases h : Nat.log2 imgSize - 4 = 0
  · simp [genInit, h]
  · simp [genInit, h, List.reverse_append,
      genPyramid_mirror styleDim maxConvDim P, adaSig, resMirrorSig, mkAda, mkRes]

/-!  ## Construction failure for small image sizes -/

theorem log2_ge_five_iff (m : Nat) : 5 ≤ Nat.log2 m ↔ 32 ≤ m := by
  rw [Nat.log2_eq_log_two]
  rcases Nat.eq_zero_or_pos m with h0 | h0
  · subst h0
    simp
  · rw [show (32 : Nat) = 2 ^ 5 from by norm_num,
      Nat.pow_le_iff_le_log (by norm_num) (Nat.pos_iff_ne_zero.mp h0)]

/-- Claim C10: the constructors are well defined exactly when the
downsampling loop runs at least once — `Generator.__init__` needs
`int(log2(img_size)) - 4 >= 1` (equivalently `img_size >= 32`), and
`Discriminator.__init__` / `StyleEncoder.__init__` need
`int(log2(img_size)) - 2 >= 1`; otherwise the loop-local `dim_out` is
referenced before assignment and construction fails (`none`). -/
theorem C10_init_requires_minimum_img_size
    (imgSize styleDim numDomains maxConvDim : Nat)
    (P Ph : Nat → Nat → List Nat → α) :
    ((genInit imgSize styleDim maxConvDim P : Option (Generator α)).isSome
        ↔ 1 ≤ Nat.log2 imgSize - 4)
      ∧ ((discInit imgSize numDomains maxConvDim P : Option (Discriminator α)).isSome
        ↔ 1 ≤ Nat.log2 imgSize - 2)
      ∧ ((styleEncInit imgSize styleDim numDomains maxConvDim P Ph :
            Option (StyleEncoder α)).isSome
        ↔ 1 ≤ Nat.log2 imgSize - 2)
      ∧ (1 ≤ Nat.log2 imgSize - 4 ↔ 32 ≤ imgSize) := by
  refine ⟨?_, ?_, ?_, ?_⟩
  · by_cases h : Nat.log2 imgSize - 4 = 0 <;> simp [genInit, h] <;> omega
  · by_cases h : Nat.log2 imgSize - 2 = 0 <;> simp [discInit, h] <;> omega
  · by_cases h : Nat.log2 imgSize - 2 = 0 <;> simp [styleEncInit, h] <;> omega
  · have h5 := log2_ge_five_iff imgSize
    omega

/-!  ## Head selection in `Discriminator.forward` -/

theorem shaped_some {msg : String} {s? : Option (List Nat)} {d : List Nat → α}
    {s : List Nat} (h : s? = some s) : shaped msg s? d = .ok ⟨s, d⟩ := by
  rw [h]
  rfl

theorem shaped_none {msg : String} {s? : Option (List Nat)} {d : List Nat → α}
    (h : s? = none) : shaped msg s? d = .error msg := by
  rw [h]
  rfl

/-- Evaluation of `Discriminator.forward` after the pyramid: flattening
a `(N, D, 1, 1)` output to `(N, D)` and gathering `out[i, y_i]` (with
torch wrap-around for negative indices). -/
theorem discForward_eval (SC : ScalarCfg α) (d : Discriminator α) (x out : Tensor α)
    (y : List Int) (N D : Nat)
    (h1 : seqForward SC d.blocks x = .ok out)
    (h2 : out.shape = [N, D, 1, 1])
    (h3 : y.length ≤ N)
    (h4 : ∀ v ∈ y, -(D : Int) ≤ v ∧ v < D) :
    ∃ r, d.forward SC x y = .ok r ∧ r.shape = [y.length] ∧
      ∀ i, r.data [i] = out.data [i, intWrap D (y.getD i 0), 0, 0] := by
  have hflat : flatShape out.shape = some [N, D] := by
    rw [h2]
    simp [flatShape]
  have hgather : gatherShape y [N, D] = some [y.length] := by
    show (if y.length ≤ N ∧ ∀ v ∈ y, -(D : Int) ≤ v ∧ v < D then
        some (y.length :: ([] : List Nat))
      else none) = some [y.length]
    rw [if_pos ⟨h3, h4⟩]
  unfold Discriminator.forward
  rw [h1, ok_bind]
  have hft : flattenTail out = .ok (⟨[N, D], fun idx =>
      match out.shape, idx with
      | _ :: rest, [n, j] => out.data (n :: flattenTail.unflatten rest j)
      | _, _ => 0⟩ : Tensor α) := shaped_some hflat
  rw [hft, ok_bind]
  refine ⟨_, shaped_some hgather, rfl, fun i => ?_⟩
  show (match ([N, D] : List Nat), ([i] : List Nat) with
    | _ :: d1 :: _, b :: r =>
      (⟨[N, D], fun idx =>
        match out.shape, idx with
        | _ :: rest, [n, j] => out.data (n :: flattenTail.unflatten rest j)
        | _, _ => 0⟩ : Tensor α).data (b :: intWrap d1 (y.getD b 0) :: r)
    | _, _ => 0) = out.data [i, intWrap D (y.getD i 0), 0, 0]
  rw [h2]
  simp [flattenTail.unflatten, Nat.mod_one]

/-- `Discriminator.forward` fails with the index-range error when some
entry of `y` lies outside `[-D, D)` (or `y` is longer than the batch). -/
theorem discForward_oob (SC : ScalarCfg α) (d : Discriminator α) (x out : Tensor α)
    (y : List Int) (N D : Nat)
    (h1 : seqForward SC d.blocks x = .ok out)
    (h2 : out.shape = [N, D, 1, 1])
    (h5 : ¬(y.length ≤ N ∧ ∀ v ∈ y, -(D : Int) ≤ v ∧ v < D)) :
    d.forward SC x y = .error "IndexError: index out of bounds" := by
  have hflat : flatShape out.shape = some [N, D] := by
    rw [h2]
    simp [flatShape]
  have hgather : gatherShape y [N, D] = none := by
    show (if y.length ≤ N ∧ ∀ v ∈ y, -(D : Int) ≤ v ∧ v < D then
        some (y.length :: ([] : List Nat))
      else none) = none
    rw [if_neg h5]
  unfold Discriminator.forward
  rw [h1, ok_bind]
  have hft : flattenTail out = .ok (⟨[N, D], fun idx =>
      match out.shape, idx with
      | _ :: rest, [n, j] => out.data (n :: flattenTail.unflatten rest j)
      | _, _ => 0⟩ : Tensor α) := shaped_some hflat
  rw [hft, ok_bind]
  exact shaped_none hgather

/-- Claim C7: whenever the pyramid produces per-domain logits of shape
`(N, D, 1, 1)` and `y` has length `N` with every entry in `[0, D)`,
`Discriminator.forward` returns a rank-1 tensor of length `N` whose
`i`-th entry is exactly the pyramid logit of example `i` at domain
`y_i`; the logits of the other domains are dropped by the gather. -/
theorem C7_discriminator_gathers_own_domain_logit (SC : ScalarCfg α)
    (d : Discriminator α) (x out : Tensor α) (y : List Int) (N D : Nat)
    (h1 : seqForward SC d.blocks x = .ok out)
    (h2 : out.shape = [N, D, 1, 1])
    (h3 : y.length = N)
    (h4 : ∀ v ∈ y, 0 ≤ v ∧ v < (D : Int)) :
    ∃ r, d.forward SC x y = .ok r ∧ r.shape = [N] ∧
      ∀ i, i < N → r.data [i] = out.data [i, (y.getD i 0).toNat, 0, 0] := by
  have h4' : ∀ v ∈ y, -(D : Int) ≤ v ∧ v < D := fun v hv =>
    ⟨le_trans (by omega) (h4 v hv).1, (h4 v hv).2⟩
  obtain ⟨r, hr, hrs, hrd⟩ := discForward_eval SC d x out y N D h1 h2 (le_of_eq h3) h4'
  refine ⟨r, hr, by rw [hrs, h3], fun i hi => ?_⟩
  rw [hrd i]
  congr 2
  unfold intWrap
  by_cases hmem : i < y.length
  · have hyi : y.getD i 0 = y[i] := by
      simp [List.getD_eq_getElem?_getD, List.getElem?_eq_getElem hmem]
    have hin := h4 (y.getD i 0) (by rw [hyi]; exact List.getElem_mem hmem)
    rw [if_neg (by omega)]
  · have hyi : y.getD i 0 = 0 := by
      simp [List.getD_eq_getElem?_getD, List.getElem?_eq_none_iff.mpr (by omega)]
    rw [hyi]
    simp

/-- Claim C4, as amended: with per-domain logits of shape
`(N, D, 1, 1)` and `y` of length `N`, `Discriminator.forward` fails
with an index-range error only when some `y_i` lies outside
`[-D, D)`; a negative `y_i` in `[-D, 0)` does NOT fail but silently
wraps around, selecting the logit of domain `D + y_i` (torch negative
indexing). -/
theorem C4_discriminator_domain_index_range (SC : ScalarCfg α)
    (d : Discriminator α) (x out : Tensor α) (y : List Int) (N D : Nat)
    (h1 : seqForward SC d.blocks x = .ok out)
    (h2 : out.shape = [N, D, 1, 1])
    (h3 : y.length = N) :
    ((∀ v ∈ y, -(D : Int) ≤ v ∧ v < D) →
      ∃ r, d.forward SC x y = .ok r ∧ r.shape = [N] ∧
        ∀ i, i < N → r.data [i] = out.data [i, intWrap D (y.getD i 0), 0, 0])
    ∧ ((∃ v ∈ y, v < -(D : Int) ∨ (D : Int) ≤ v) →
      d.forward SC x y = .error "IndexError: index out of bounds") := by
  constructor
  · intro h4
    obtain ⟨r, hr, hrs, hrd⟩ := discForward_eval SC d x out y N D h1 h2 (le_of_eq h3) h4
    exact ⟨r, hr, by rw [hrs, h3], fun i _ => hrd i⟩
  · rintro ⟨v, hv, hout⟩
    refine discForward_oob SC d x out y N D h1 h2 ?_
    rintro ⟨_, hall⟩
    obtain ⟨hl, hr'⟩ := hall v hv
    omega

/-!  ## Claims C1, C2, C3: the broken forward passes -/

theorem error_bind {β γ : Type} (m : String) (k : β → Except String γ) :
    (Except.error m >>= k : Except String γ) = .error m := rfl

/-- Claim C1 (the code bug): `MappingNetwork.forward` never returns a
style code.  After the shared trunk runs (which it does on a `(1, 16)`
latent), the loop `for layer in unshared:` references the undefined
module-level name `unshared` (missing `self.`), so every call raises
`NameError` instead of returning the gathered `(1, 64)` head output the
spec describes. -/
theorem C1_mappingNetwork_forward_raises_nameerror (SC : ScalarCfg α)
    (P : Nat → Nat → List Nat → α) (Ph : Nat → Nat → Nat → List Nat → α)
    (z : Tensor α) (y : List Int) (hz : z.shape = [1, 16]) :
    (mappingInit 16 64 2 P Ph).forward SC z y
      = .error "NameError: name unshared is not defined" := by
  have hsh : seqShape ((mappingInit 16 64 2 P Ph :
      MappingNetwork α).shared.map layerSig) [1, 16] = some [1, 512] := by rfl
  obtain ⟨h, hok, _⟩ := seqForward_of_shape SC _ z _ (by rw [hz]; exact hsh)
  unfold MappingNetwork.forward
  rw [hok, ok_bind]

/-- Claim C2 (the code bug): at the default configuration
(`img_size=256`, `style_dim=64`, `num_domains=2`), a forward pass of
`StyleEncoder` on a `(1, 3, 256, 256)` image with domain 0 does not
return a `(1, 64)` style vector: the shared pyramid runs fine (its
output has shape `(1, 512, 1, 1)`), but each per-domain
`Linear(512, 64)` head is then applied to the raw input `x`, whose last
dimension is 256, so the call fails with a matmul shape mismatch. -/
theorem C2_styleEncoder_forward_fails_at_256 (SC : ScalarCfg α)
    (P Ph : Nat → Nat → List Nat → α) (se : StyleEncoder α) (x : Tensor α)
    (hse : styleEncInit 256 64 2 512 P Ph = some se)
    (hx : x.shape = [1, 3, 256, 256]) :
    se.forward SC x [0] = .error "linear: shape mismatch" := by
  have h256 : Nat.log2 256 = 8 := by
    rw [show (256 : Nat) = 2 ^ 8 from by norm_num, Nat.log2_eq_log_two]
    exact Nat.log_pow (by norm_num) 8
  unfold styleEncInit at hse
  rw [h256] at hse
  rw [if_neg (by norm_num)] at hse
  have hseq := Option.some.inj hse
  subst hseq
  have hsigs : ((Layer.conv (mkConv 3 (2 ^ 14 / 256) 3 1 1 (P 0)) ::
      (discPyramid 512 P 1 (2 ^ 14 / 256) (8 - 2)).1 ++
      [Layer.leaky,
       Layer.conv (mkConv (discPyramid 512 P 1 (2 ^ 14 / 256) (8 - 2)).2
         (discPyramid 512 P 1 (2 ^ 14 / 256) (8 - 2)).2 4 1 0 (P 900)),
       Layer.leaky]).map (layerSig (α := α)))
      = [LayerSig.conv 3 64 3 1 1, .res 64 128 true false, .res 128 256 true false,
         .res 256 512 true false, .res 512 512 true false, .res 512 512 true false,
         .res 512 512 true false, .leaky, .conv 512 512 4 1 0, .leaky] := rfl
  have hsh : seqShape ((Layer.conv (mkConv 3 (2 ^ 14 / 256) 3 1 1 (P 0)) ::
      (discPyramid 512 P 1 (2 ^ 14 / 256) (8 - 2)).1 ++
      [Layer.leaky,
       Layer.conv (mkConv (discPyramid 512 P 1 (2 ^ 14 / 256) (8 - 2)).2
         (discPyramid 512 P 1 (2 ^ 14 / 256) (8 - 2)).2 4 1 0 (P 900)),
       Layer.leaky]).map (layerSig (α := α))) [1, 3, 256, 256]
      = some [1, 512, 1, 1] := by
    rw [hsigs]
    decide
  obtain ⟨h, hok, hhs⟩ := seqForward_of_shape SC _ x _ (by rw [hx]; exact hsh)
  unfold StyleEncoder.forward
  rw [hok, ok_bind]
  have hflat : flatShape h.shape = some [1, 512] := by
    rw [hhs]
    rfl
  have hcf : ShapeCorr (flattenTail h) (flatShape h.shape) := shaped_shapeCorr _ _ _
  rw [hflat] at hcf
  obtain ⟨hf, hfok, _⟩ := hcf
  rw [hfok, ok_bind]
  have hfail : linearApply (mkLinear (discPyramid 512 P 1 (2 ^ 14 / 256) (8 - 2)).2
      64 (Ph 0)) x = (.error "linear: shape mismatch" : Except String (Tensor α)) := by
    have hnone : linShape 512 64 x.shape = none := by
      rw [hx]
      rfl
    exact shaped_none hnone
  show ((List.range 2).map (fun d =>
      mkLinear (discPyramid 512 P 1 (2 ^ 14 / 256) (8 - 2)).2 64 (Ph d))).mapM
      (fun l => linearApply l x) >>= _ = _
  rw [show List.range 2 = [0, 1] from rfl, List.map_cons, List.map_cons, List.map_nil,
    List.mapM_cons, hfail]
  rfl

/-- Claim C3: in `StyleEncoder.forward` every per-domain head is applied
to the raw input `x`, not to the flattened shared feature `h`; `h` is
computed but never consumed.  Formally: (a) the result is unchanged when
the shared pyramid parameters are replaced by any others with the same
layer signatures (so the value of `h` cannot influence it), and (b) the
forward pass equals the pipeline that maps the heads over `x` itself,
stacks, and gathers. -/
theorem C3_styleEncoder_heads_applied_to_raw_input (SC : ScalarCfg α)
    (se se2 : StyleEncoder α) (x : Tensor α) (y : List Int) (h : Tensor α)
    (hheads : se.unshared = se2.unshared)
    (hsig : se.shared.map layerSig = se2.shared.map layerSig)
    (hok : seqForward SC se.shared x = .ok h)
    (hrank : h.shape ≠ []) :
    se.forward SC x y = se2.forward SC x y
    ∧ se.forward SC x y
      = (se.unshared.mapM (fun l => linearApply l x) >>= fun outs =>
         stack1 outs >>= fun st => advGather st y) := by
  have hbody : ∀ (se3 : StyleEncoder α) (h3 : Tensor α),
      se3.unshared = se.unshared →
      seqForward SC se3.shared x = .ok h3 → h3.shape ≠ [] →
      se3.forward SC x y
        = (se.unshared.mapM (fun l => linearApply l x) >>= fun outs =>
           stack1 outs >>= fun st => advGather st y) := by
    intro se3 h3 hh3 hok3 hrank3
    unfold StyleEncoder.forward
    rw [hok3, ok_bind]
    obtain ⟨d0, rest, hsh3⟩ : ∃ d0 rest, h3.shape = d0 :: rest := by
      cases hsh : h3.shape with
      | nil => exact absurd hsh hrank3
      | cons d0 rest => exact ⟨d0, rest, rfl⟩
    have hflat : flatShape h3.shape = some [d0, rest.prod] := by
      rw [hsh3]
      rfl
    have hcf : ShapeCorr (flattenTail h3) (flatShape h3.shape) := shaped_shapeCorr _ _ _
    rw [hflat] at hcf
    obtain ⟨hf, hfok, _⟩ := hcf
    rw [hfok, ok_bind, hh3]
  have hok2 : ∃ h2, seqForward SC se2.shared x = .ok h2 ∧ h2.shape = h.shape := by
    have hs := seqForward_ok_shape SC se.shared x h hok
    rw [hsig] at hs
    exact seqForward_of_shape SC se2.shared x _ hs
  obtain ⟨h2, hok2', hsh2⟩ := hok2
  have hb1 := hbody se h rfl hok hrank
  have hb2 := hbody se2 h2 hheads.symm hok2' (by rw [hsh2]; exact hrank)
  exact ⟨by rw [hb1, hb2], hb1⟩

/-- Claim C8: `ResBlock.forward(x)` is exactly
`(residual(x) + shortcut(x)) / sqrt(2)`, where the shortcut is the
identity unless `dim_in != dim_out` (then a bias-free 1x1
channel-projecting convolution), followed by 2x average pooling when
downsampling; and the residual path is: optional instance norm,
leaky-0.2 activation, 3x3 convolution keeping `dim_in` channels,
optional 2x average pooling, optional second instance norm, activation,
3x3 convolution projecting to `dim_out`. -/
theorem C8_resblock_forward_composition (SC : ScalarCfg α) (r : ResBlock α)
    (x : Tensor α) :
    r.forward SC x =
      ((if r.normalize then instNormApply SC ⟨true, r.dimIn, r.g1, r.b1⟩ x
          else .ok x) >>= fun a1 =>
        convApply ⟨r.dimIn, r.dimIn, 3, 1, 1, true, r.c1W, r.c1B⟩ (leakyApply a1) >>=
          fun a2 =>
        (if r.downsample then avgPool2 a2 else .ok a2) >>= fun a3 =>
        (if r.normalize then instNormApply SC ⟨true, r.dimIn, r.g2, r.b2⟩ a3
          else .ok a3) >>= fun a4 =>
        convApply ⟨r.dimIn, r.dimOut, 3, 1, 1, true, r.c2W, r.c2B⟩ (leakyApply a4)) >>=
        fun residual =>
      ((if r.dimIn ≠ r.dimOut then
          convApply ⟨r.dimIn, r.dimOut, 1, 1, 0, false, r.cxW, fun _ => 0⟩ x
        else .ok x) >>= fun b1 =>
        (if r.downsample then avgPool2 b1 else .ok b1)) >>= fun shortcut =>
      bcBinOp (fun a b => a + b) residual shortcut >>= fun sum =>
      .ok (tmap (fun v => v / SC.sqrt2) sum) := rfl

/-!  ## Pointwise evaluation of `AdaptiveInstanceNorm.forward` -/

theorem linearApply_eval (l : LinearP α) (s : Tensor α) (N : Nat)
    (hs : s.shape = [N, l.inF]) :
    linearApply l s = .ok ⟨[N, l.outF], fun idx =>
      l.b (idx.getLastD 0) + Finset.sum (Finset.range l.inF)
        (fun q => l.w [idx.getLastD 0, q] * s.data (idx.dropLast ++ [q]))⟩ := by
  apply shaped_some
  rw [hs]
  unfold linShape
  rw [if_pos ⟨by simp, rfl⟩]
  rfl

theorem view4of2_eval (N F : Nat) (d : List Nat → α) :
    view4of2 (⟨[N, F], d⟩ : Tensor α)
      = .ok ⟨[N, F, 1, 1], fun idx =>
          match idx with
          | [n, f, _, _] => d [n, f]
          | _ => 0⟩ :=
  shaped_some rfl

theorem chunk2_eval (N F : Nat) (d : List Nat → α) :
    chunk2 (⟨[N, 2 * F, 1, 1], d⟩ : Tensor α)
      = .ok (⟨[N, F, 1, 1], fun idx => d idx⟩,
             ⟨[N, F, 1, 1], fun idx =>
               match idx with
               | n :: c :: r => d (n :: (F + c) :: r)
               | _ => 0⟩) := by
  have hstep : chunk2 (⟨[N, 2 * F, 1, 1], d⟩ : Tensor α)
      = .ok (⟨[N, (2 * F + 1) / 2, 1, 1], fun idx => d idx⟩,
             ⟨[N, 2 * F - (2 * F + 1) / 2, 1, 1], fun idx =>
               match idx with
               | n :: c :: r => d (n :: ((2 * F + 1) / 2 + c) :: r)
               | _ => 0⟩) := rfl
  rw [hstep, show (2 * F + 1) / 2 = F from by omega,
    show 2 * F - F = F from by omega]

theorem instNorm_noaffine_eval (SC : ScalarCfg α) (nf : Nat) (g0 b0 : Nat → α)
    (x : Tensor α) (N C H W : Nat) (hx : x.shape = [N, C, H, W]) (hHW : 1 < H * W) :
    instNormApply SC ⟨false, nf, g0, b0⟩ x
      = .ok ⟨[N, C, H, W], fun idx =>
          match idx with
          | [n, c, i, j] =>
            (x.data [n, c, i, j] - instMean x H W n c) /
              SC.sqrtA (instVar x H W n c + instEps)
          | _ => 0⟩ := by
  have hsome : instShape false nf x.shape = some [N, C, H, W] := by
    rw [hx]
    show (if ((false : Bool) = true → C = nf) ∧ 1 < H * W then
        some [N, C, H, W] else none) = some [N, C, H, W]
    rw [if_pos ⟨fun hh => absurd hh (by simp), hHW⟩]
  refine Eq.trans (shaped_some hsome) ?_
  congr 1
  congr 1
  funext idx
  rw [hx]
  rcases idx with _ | ⟨a, _ | ⟨b, _ | ⟨c1, _ | ⟨d1, _ | rest⟩⟩⟩⟩ <;> simp

theorem bcBinOp_eval (f : α → α → α) (x y : Tensor α) (s : List Nat)
    (h : bcShape x.shape y.shape = some s) :
    bcBinOp f x y
      = .ok ⟨s, fun idx => f (x.data (bcIdx x.shape idx)) (y.data (bcIdx y.shape idx))⟩ :=
  shaped_some h

theorem bcIdx_dim (d i : Nat) (h : i < d) : (if d = 1 then 0 else i) = i := by
  by_cases hd : d = 1
  · rw [if_pos hd]
    omega
  · rw [if_neg hd]

/-- Claim C9: `AdaptiveInstanceNorm.forward(x, s)` succeeds on a
feature map with `num_features` channels and a batch-matched rank-2
style vector of width `style_dim` (provided the spatial extent exceeds
one element, as instance statistics require), and every valid entry of
the result equals `(1 + gamma) * normalized(x) + beta`: `normalized` is
per-channel instance normalisation without learned affine parameters,
and `gamma`/`beta` are the first and second halves along the channel
axis of the linear projection `fc(s)`, broadcast over the spatial
dimensions. -/
theorem C9_adaptive_instance_norm_formula (SC : ScalarCfg α)
    (m : AdaptiveInstanceNorm α) (x s : Tensor α) (N H W : Nat)
    (hx : x.shape = [N, m.nf, H, W]) (hs : s.shape = [N, m.styleDim])
    (hHW : 1 < H * W) :
    ∃ t, m.forward SC x s = .ok t ∧ t.shape = [N, m.nf, H, W] ∧
      ∀ n c i j, n < N → c < m.nf → i < H → j < W →
        t.data [n, c, i, j]
          = (1 + (m.fcB c + Finset.sum (Finset.range m.styleDim)
                (fun q => m.fcW [c, q] * s.data [n, q])))
              * ((x.data [n, c, i, j] - instMean x H W n c)
                  / SC.sqrtA (instVar x H W n c + instEps))
            + (m.fcB (m.nf + c) + Finset.sum (Finset.range m.styleDim)
                (fun q => m.fcW [m.nf + c, q] * s.data [n, q])) := by
  have hbc1 : bcShape [N, m.nf, 1, 1] [N, m.nf, H, W] = some [N, m.nf, H, W] := by
    simp [bcShape, bcDim_self, bcDim_one_left]
  have hbc2 : bcShape [N, m.nf, H, W] [N, m.nf, 1, 1] = some [N, m.nf, H, W] := by
    simp [bcShape, bcDim_self, bcDim_one_right]
  unfold AdaptiveInstanceNorm.forward
  rw [linearApply_eval ⟨m.styleDim, 2 * m.nf, m.fcW, m.fcB⟩ s N (by rw [hs]), ok_bind,
    view4of2_eval, ok_bind, chunk2_eval, ok_bind,
    instNorm_noaffine_eval SC m.nf (fun _ => 0) (fun _ => 0) x N m.nf H W hx hHW,
    ok_bind,
    bcBinOp_eval _ _ _ [N, m.nf, H, W] hbc1, ok_bind,
    bcBinOp_eval _ _ _ [N, m.nf, H, W] hbc2]
  refine ⟨_, rfl, rfl, fun n c i j hn hc hi hj => ?_⟩
  simp only [tmap, bcIdx, bcIdx_dim N n hn, bcIdx_dim m.nf c hc, bcIdx_dim H i hi,
    bcIdx_dim W j hj]
  simp

/-!  ## Witnesses and counterexamples -/

/-- Counterexample to claim C4 as stated: on the discriminator actually
built by `Discriminator.__init__(img_size=8, num_domains=2)` (all-zero
parameters) and a `(1, 3, 8, 8)` input, the domain index `-1` lies
outside `[0, 2)`, yet the forward call does NOT fail with an
index-range error — it succeeds (torch wraps the negative index to
domain 1). -/
theorem C4_counterexample_negative_index_wraps :
    ((discInit 8 2 512 P0).map
      (fun d => (d.forward SCQ (zerosQ [1, 3, 8, 8]) [-1]).isOk)) = some true := by
  have h8 : Nat.log2 8 = 3 := by
    rw [show (8 : Nat) = 2 ^ 3 from by norm_num, Nat.log2_eq_log_two]
    exact Nat.log_pow (by norm_num) 3
  unfold discInit
  rw [h8]
  rw [if_neg (by norm_num)]
  decide

/-- Witness for C1 at a concrete zero latent of shape `(1, 16)`. -/
theorem C1_witness :
    (mappingInit 16 64 2 P0 Ph0).forward SCQ (zerosQ [1, 16]) [0]
      = .error "NameError: name unshared is not defined" :=
  C1_mappingNetwork_forward_raises_nameerror SCQ P0 Ph0 (zerosQ [1, 16]) [0] rfl

/-- Witness for C2 on the style encoder built by the constructor at the
default configuration, with a concrete zero image. -/
theorem C2_witness :
    StyleEncoder.forward SCQ ((styleEncInit 256 64 2 512 P0 P0).getD seDefault)
      (zerosQ [1, 3, 256, 256]) [0] = .error "linear: shape mismatch" := by
  have h256 : Nat.log2 256 = 8 := by
    rw [show (256 : Nat) = 2 ^ 8 from by norm_num, Nat.log2_eq_log_two]
    exact Nat.log_pow (by norm_num) 8
  have hse : styleEncInit 256 64 2 512 P0 P0
      = some ((styleEncInit 256 64 2 512 P0 P0).getD seDefault) := by
    cases hI : (styleEncInit 256 64 2 512 P0 P0 : Option (StyleEncoder ℚ)) with
    | none =>
      exfalso
      unfold styleEncInit at hI
      rw [h256] at hI
      rw [if_neg (by norm_num)] at hI
      exact Option.noConfusion hI
    | some se => rfl
  exact C2_styleEncoder_forward_fails_at_256 SCQ P0 P0 _ _ hse rfl

/-- Witness for C3 on a concrete style encoder and input. -/
theorem C3_witness :
    (StyleEncoder.forward SCQ seQh x12 [0] = StyleEncoder.forward SCQ seQh x12 [0])
    ∧ StyleEncoder.forward SCQ seQh x12 [0]
      = (seQh.unshared.mapM (fun l => linearApply l x12) >>= fun outs =>
         stack1 outs >>= fun st => advGather st [0]) :=
  C3_styleEncoder_heads_applied_to_raw_input SCQ seQh seQh x12 [0] x12 rfl rfl rfl
    (by decide)

/-- Witness for the amended C4: with concrete per-domain logits
`(0, 5)`, the index `-1` succeeds and selects domain 1 (the logit 5),
while the index `2` fails with the index-range error. -/
theorem C4_witness :
    (∃ r, Discriminator.forward SCQ dEmptyQ outQ [-1] = .ok r ∧ r.shape = [1] ∧
       r.data [0] = outQ.data [0, intWrap 2 (([-1] : List Int).getD 0 0), 0, 0])
    ∧ Discriminator.forward SCQ dEmptyQ outQ [2]
      = .error "IndexError: index out of bounds" := by
  have h1 := C4_discriminator_domain_index_range SCQ dEmptyQ outQ outQ [-1] 1 2 rfl rfl rfl
  obtain ⟨r, hr, hrs, hrd⟩ := h1.1 (by decide)
  have h2 := C4_discriminator_domain_index_range SCQ dEmptyQ outQ outQ [2] 1 2 rfl rfl rfl
  exact ⟨⟨r, hr, hrs, hrd 0 (by norm_num)⟩, h2.2 (by decide)⟩

/-- Witness for C5 on the generator built at `img_size = 32` with a
concrete zero image and style vector. -/
theorem C5_witness :
    ∃ t, Generator.forward SCQ ((genInit 32 64 512 P0).getD genDefault)
        (zerosQ [1, 3, 32, 32]) (zerosQ [1, 64]) = .ok t ∧
      t.shape = [1, 3, 32, 32] := by
  have h5 : Nat.log2 32 = 5 := by
    rw [show (32 : Nat) = 2 ^ 5 from by norm_num, Nat.log2_eq_log_two]
    exact Nat.log_pow (by norm_num) 5
  have hg : genInit 32 64 512 P0 = some ((genInit 32 64 512 P0).getD genDefault) := by
    cases hI : (genInit 32 64 512 P0 : Option (Generator ℚ)) with
    | none =>
      exfalso
      unfold genInit at hI
      rw [h5] at hI
      rw [if_neg (by norm_num)] at hI
      exact Option.noConfusion hI
    | some g => rfl
  exact C5_generator_forward_preserves_shape SCQ 5 1 64 512 P0 _ _ _ (by norm_num)
    hg rfl rfl

/-- Witness for C7 with concrete per-domain logits `(0, 5)` and domain
index 1: the returned entry is the domain-1 logit. -/
theorem C7_witness :
    ∃ r, Discriminator.forward SCQ dEmptyQ outQ [1] = .ok r ∧ r.shape = [1] ∧
      r.data [0] = outQ.data [0, (([1] : List Int).getD 0 0).toNat, 0, 0] := by
  obtain ⟨r, hr, hrs, hrd⟩ := C7_discriminator_gathers_own_domain_logit SCQ dEmptyQ
    outQ outQ [1] 1 2 rfl rfl rfl (by decide)
  exact ⟨r, hr, hrs, hrd 0 (by norm_num)⟩

/-- Witness for C9 on a concrete `(1, 1, 1, 2)` feature map and `(1, 1)`
style vector. -/
theorem C9_witness :
    ∃ t, AdaptiveInstanceNorm.forward SCQ adaQ (zerosQ [1, 1, 1, 2]) (zerosQ [1, 1])
        = .ok t ∧
      t.shape = [1, 1, 1, 2] ∧
      t.data [0, 0, 0, 1]
        = (1 + (adaQ.fcB 0 + Finset.sum (Finset.range adaQ.styleDim)
              (fun q => adaQ.fcW [0, q] * (zerosQ [1, 1]).data [0, q])))
            * (((zerosQ [1, 1, 1, 2]).data [0, 0, 0, 1]
                  - instMean (zerosQ [1, 1, 1, 2]) 1 2 0 0)
                / SCQ.sqrtA (instVar (zerosQ [1, 1, 1, 2]) 1 2 0 0 + instEps))
          + (adaQ.fcB (adaQ.nf + 0) + Finset.sum (Finset.range adaQ.styleDim)
              (fun q => adaQ.fcW [adaQ.nf + 0, q] * (zerosQ [1, 1]).data [0, q])) := by
  obtain ⟨t, h1, h2, h3⟩ := C9_adaptive_instance_norm_formula SCQ adaQ
    (zerosQ [1, 1, 1, 2]) (zerosQ [1, 1]) 1 1 2 rfl rfl (by norm_num)
  exact ⟨t, h1, h2, h3 0 0 0 1 (by norm_num) (by decide) (by norm_num) (by norm_num)⟩

end StarGanV2
